import Mathlib

/-
Verification of the RBAC authorization engine of the BackendOpen repository.

The definitions below are a shallow embedding of the JavaScript source:
  * src/src/models/sql/{User,Role,UserRole,RolePermission}.js and the
    permissions model — the relational data model, embedded as Lean
    structures over a `DB` state holding the five tables as lists;
  * src/src/services/rbacService.js — the permission resolver
    (hasPermission / getUserPermissions), assignment operations
    (assignRole / removeRole) and the bootstrap (initializeRBAC,
    embedded here as initRBAC);
  * src/src/middleware/rbac.js — the enforcement gates
    (requirePermission, requireRole, requireOwnership);
  * src/src/controllers/rbacController.js — updateRole / deleteRole;
  * src/src/routes/rbac.js — the self-or-user.read gate on the
    user-permissions endpoints.

UUIDs are embedded as Nat ids, timestamps as Nat.  Sequelize row
creation draws fresh ids from a `nextId` counter carried in `DB`.
-/

namespace RBAC

/-- A row of the `users` table (src/src/models/sql/User.js): primary key
and the legacy scalar role column `rol`. -/
structure User where
  id : Nat
  rol : String
deriving Repr, DecidableEq

/-- A row of the `roles` table (src/src/models/sql/Role.js). -/
structure Role where
  id : Nat
  name : String
  display_name : String
  descr : String
  is_active : Bool
  is_system : Bool
deriving Repr, DecidableEq

/-- A row of the `permissions` table (src/src/models/sql Permission model). -/
structure Permission where
  id : Nat
  name : String
  display_name : String
  descr : String
  resource : String
  action : String
  is_active : Bool
deriving Repr, DecidableEq

/-- A row of the `user_roles` table (src/src/models/sql/UserRole.js):
the role-assignment join with audit fields and optional expiry. -/
structure UserRole where
  id : Nat
  user_id : Nat
  role_id : Nat
  assigned_by : Option Nat
  assigned_at : Nat
  expires_at : Option Nat
  is_active : Bool
deriving Repr, DecidableEq

/-- A row of the `role_permissions` table (src/src/models/sql/RolePermission.js). -/
structure RolePermission where
  role_id : Nat
  permission_id : Nat
  granted_by : Option Nat
deriving Repr, DecidableEq

/-- The relational store: the five tables touched by the RBAC core, plus
the fresh-id counter used when Sequelize creates a row. -/
structure DB where
  users : List User
  roles : List Role
  permissions : List Permission
  userRoles : List UserRole
  rolePermissions : List RolePermission
  nextId : Nat
deriving Repr, DecidableEq

/-- `rbacService.hasPermission(userId, permissionName)`
(src/src/services/rbacService.js lines 256-287): loads the user with its
roles joined through active `user_roles` rows, each role joined to the
permission with the requested name and `is_active = true`; returns true
iff the user exists and some such role with such a permission exists.
Note the query filters `UserRole.is_active` and `Permission.is_active`
but places no condition on `Role.is_active` or `UserRole.expires_at`. -/
def hasPermission (db : DB) (userId : Nat) (permName : String) : Bool :=
  db.users.any (fun u => u.id == userId) &&
  db.userRoles.any (fun ur =>
    ur.user_id == userId && ur.is_active &&
    db.roles.any (fun r =>
      r.id == ur.role_id &&
      db.rolePermissions.any (fun rp =>
        rp.role_id == r.id &&
        db.permissions.any (fun p =>
          p.id == rp.permission_id && p.is_active && p.name == permName))))

/-- JS `Set.add` on an insertion-ordered list: append the name unless
already present. -/
def setInsert (acc : List String) (s : String) : List String :=
  if s ∈ acc then acc else acc ++ [s]

/-- The names of the active permissions granted to the role with id
`roleId`, in table order (the flattened `role.permissions` arrays of the
`getUserPermissions` query). -/
def rolePermissionNames (db : DB) (roleId : Nat) : List String :=
  ((db.rolePermissions.filter (fun rp => rp.role_id == roleId)).flatMap
    (fun rp => db.permissions.filter (fun p =>
      p.id == rp.permission_id && p.is_active))).map Permission.name

/-- `rbacService.getUserPermissions(userId)` (rbacService.js lines
294-328): loads the user's roles through active assignments, unions the
active permission names of every such role into a JS `Set`, and returns
`Array.from` of it; returns `[]` when the user row is absent. -/
def getUserPermissions (db : DB) (userId : Nat) : List String :=
  if db.users.any (fun u => u.id == userId) then
    (((db.userRoles.filter (fun ur => ur.user_id == userId && ur.is_active)).flatMap
      (fun ur => db.roles.filter (fun r => r.id == ur.role_id))).flatMap
      (fun r => rolePermissionNames db r.id)).foldl setInsert []
  else []

/-- The `try`/`catch` wrapper of `hasPermission`: the Sequelize query can
fail (modelled by the `queryResult` parameter); the `catch` branch logs
and returns `false` (rbacService.js lines 283-286). -/
def hasPermissionSafe (db : DB) (queryResult : Except String Unit)
    (userId : Nat) (permName : String) : Bool :=
  match queryResult with
  | Except.error _ => false
  | Except.ok _ => hasPermission db userId permName

/-- The `try`/`catch` wrapper of `getUserPermissions`: on a query failure
the `catch` branch logs and returns `[]` (rbacService.js lines 324-327). -/
def getUserPermissionsSafe (db : DB) (queryResult : Except String Unit)
    (userId : Nat) : List String :=
  match queryResult with
  | Except.error _ => []
  | Except.ok _ => getUserPermissions db userId

/-- The claim's effective-permission predicate, written from the spec's
words (spec.md section 3 invariant): permission active, granted to a role
that is itself active and reached through an active, non-expired
assignment.  `now` is the evaluation time for expiry. -/
def specHasPermission (db : DB) (now : Nat) (userId : Nat) (permName : String) : Bool :=
  db.userRoles.any (fun ur =>
    ur.user_id == userId && ur.is_active &&
    (match ur.expires_at with
     | none => true
     | some t => decide (now < t)) &&
    db.roles.any (fun r =>
      r.id == ur.role_id && r.is_active &&
      db.rolePermissions.any (fun rp =>
        rp.role_id == r.id &&
        db.permissions.any (fun p =>
          p.id == rp.permission_id && p.is_active && p.name == permName))))

/-- A resource row (route, message, ...) as seen by the ownership checks:
its primary key and the value of its owner column (`created_by`). -/
structure Resource where
  id : Nat
  owner : Nat
deriving Repr, DecidableEq

/-- An incoming request as the rbac middleware sees it: the authenticated
principal placed by `authenticateToken` (absent when unauthenticated),
the `:id` route parameter, and the body's owner-field value when the
body carries one. -/
structure Request where
  user : Option User
  paramsId : Option Nat
  bodyOwner : Option Nat
deriving Repr, DecidableEq

/-- Outcome of one middleware gate: pass control (`next`) or terminate
the request with the structured denial the middleware sends. -/
inductive Decision where
  /-- the gate called `next()` -/
  | next
  /-- 401, error type AuthenticationError, code AUTHENTICATION_REQUIRED -/
  | authnRequired
  /-- 403, error type AuthorizationError, code PERMISSION_DENIED with the
  required permission name -/
  | permissionDenied (required : String)
  /-- 403, error type AuthorizationError, code ROLE_DENIED with the
  required role names -/
  | roleDenied (required : List String)
  /-- 403, error type AuthorizationError, code OWNERSHIP_DENIED -/
  | ownershipDenied
  /-- 404, resource not found -/
  | resourceMissing
  /-- 400, invalid resource configuration -/
  | invalidResourceConfig
deriving Repr, DecidableEq

/-- Options of `requirePermission` (middleware/rbac.js line 13):
`allowOwner` defaults to false, `ownerField` to the `created_by` column;
the embedded `Request.bodyOwner` already denotes the body's value at
that field. -/
structure PermOpts where
  allowOwner : Bool
deriving Repr, DecidableEq

/-- `requirePermission(permission, options)` (middleware/rbac.js lines
10-78): 401 without an authenticated user; `next()` when
`rbacService.hasPermission` holds; otherwise, when `allowOwner` is set
and an `:id` route parameter is present, `next()` when the request
BODY's owner field strictly equals the user id (the stored resource is
never loaded — see the inline comment in the source); otherwise 403
carrying the required permission. -/
def requirePermission (db : DB) (req : Request) (perm : String) (opts : PermOpts) : Decision :=
  match req.user with
  | none => Decision.authnRequired
  | some u =>
    if hasPermission db u.id perm then Decision.next
    else if opts.allowOwner && req.paramsId.isSome && req.bodyOwner == some u.id then
      Decision.next
    else Decision.permissionDenied perm

/-- The claim's reading of the `allowOwner` branch, written from the
spec's words (spec.md section 4.5): the ownership fallback compares the
STORED resource's owner field to the principal id. -/
def requirePermissionSpec (db : DB) (resources : List Resource) (req : Request)
    (perm : String) (opts : PermOpts) : Decision :=
  match req.user with
  | none => Decision.authnRequired
  | some u =>
    if hasPermission db u.id perm then Decision.next
    else
      match req.paramsId with
      | none => Decision.permissionDenied perm
      | some rid =>
        if opts.allowOwner &&
            (resources.any (fun r => r.id == rid && r.owner == u.id)) then
          Decision.next
        else Decision.permissionDenied perm

/-- The role names the RBAC branch of `requireRole` resolves for a user:
names of roles joined through active `user_roles` rows of an existing
user (middleware/rbac.js lines 166-185). -/
def userActiveRoleNames (db : DB) (userId : Nat) : List String :=
  if db.users.any (fun u => u.id == userId) then
    ((db.userRoles.filter (fun ur => ur.user_id == userId && ur.is_active)).flatMap
      (fun ur => db.roles.filter (fun r => r.id == ur.role_id))).map Role.name
  else []

/-- `requireRole(roles)` (middleware/rbac.js lines 141-213): 401 without
an authenticated user; `next()` when the legacy scalar `rol` is truthy
and contained in the required list; otherwise `next()` when some role
name resolved through an active assignment is in the required list; else
403 with the required role names. -/
def requireRole (db : DB) (req : Request) (roles : List String) : Decision :=
  match req.user with
  | none => Decision.authnRequired
  | some u =>
    if u.rol != "" && roles.contains u.rol then Decision.next
    else if (userActiveRoleNames db u.id).any (fun n => roles.contains n) then
      Decision.next
    else Decision.roleDenied roles

/-- Options of `requireOwnership` (middleware/rbac.js lines 221-226):
whether a resource model is configured and whether admins bypass the
ownership comparison (`allowAdmin` defaults to true). -/
structure OwnOpts where
  resourceModelGiven : Bool
  allowAdmin : Bool
deriving Repr, DecidableEq

/-- `requireOwnership(options)` (middleware/rbac.js lines 220-301): 401
without an authenticated user; with `allowAdmin`, `next()` for a legacy
`admin`/`super_admin` role or the blanket `system.admin` RBAC
permission; 400 when no resource model or `:id` parameter is configured;
404 when the resource row is absent; 403 when the stored owner differs
from the principal; `next()` otherwise. -/
def requireOwnership (db : DB) (resources : List Resource) (opts : OwnOpts)
    (req : Request) : Decision :=
  match req.user with
  | none => Decision.authnRequired
  | some u =>
    if opts.allowAdmin && (u.rol == "admin" || u.rol == "super_admin") then
      Decision.next
    else if opts.allowAdmin && hasPermission db u.id "system.admin" then
      Decision.next
    else
      match req.paramsId with
      | none => Decision.invalidResourceConfig
      | some rid =>
        if !opts.resourceModelGiven then Decision.invalidResourceConfig
        else
          match resources.find? (fun r => r.id == rid) with
          | none => Decision.resourceMissing
          | some r =>
            if r.owner != u.id then Decision.ownershipDenied
            else Decision.next

/-- The inline gate of `GET /user-permissions/:user_id` and
`POST /check-permission` (routes/rbac.js lines 147-177): pass when the
authenticated user asks about itself, otherwise run
`requirePermission(user.read)` with default options. -/
def selfOrUserReadGate (db : DB) (req : Request) (targetId : Nat) : Decision :=
  match req.user with
  | none => Decision.authnRequired
  | some u =>
    if u.id == targetId then Decision.next
    else requirePermission db req "user.read" ⟨false⟩

/-- Errors thrown by the assignment operations of rbacService.js; the
error handler maps them to NotFoundError / ConflictError responses. -/
inductive RbacError where
  /-- thrown message: Role not found -/
  | roleMissing (name : String)
  /-- thrown message: User already has this role -/
  | alreadyHasRole
  /-- thrown message: User does not have this role -/
  | lacksRole
deriving Repr, DecidableEq

/-- `rbacService.assignRole(userId, roleName, assignedBy)` (rbacService.js
lines 337-373): find the ACTIVE role by name (else throw); find any
existing assignment row for the (user, role) pair — if inactive,
reactivate it refreshing assigned_by/assigned_at and return it; if
active, throw the conflict; otherwise create a fresh active row.  `now`
is the clock value used for `new Date()`. -/
def assignRole (db : DB) (userId : Nat) (roleName : String)
    (assignedBy : Option Nat) (now : Nat) : Except RbacError (DB × UserRole) :=
  match db.roles.find? (fun r => r.name == roleName && r.is_active) with
  | none => Except.error (RbacError.roleMissing roleName)
  | some role =>
    match db.userRoles.find? (fun ur => ur.user_id == userId && ur.role_id == role.id) with
    | some existing =>
      if existing.is_active then Except.error RbacError.alreadyHasRole
      else
        Except.ok
          ({ db with userRoles := db.userRoles.map (fun ur =>
              if ur.id == existing.id then
                { ur with is_active := true, assigned_by := assignedBy, assigned_at := now }
              else ur) },
           { existing with is_active := true, assigned_by := assignedBy, assigned_at := now })
    | none =>
      Except.ok
        ({ db with
            userRoles := db.userRoles ++
              [{ id := db.nextId, user_id := userId, role_id := role.id,
                 assigned_by := assignedBy, assigned_at := now,
                 expires_at := none, is_active := true }],
            nextId := db.nextId + 1 },
         { id := db.nextId, user_id := userId, role_id := role.id,
           assigned_by := assignedBy, assigned_at := now,
           expires_at := none, is_active := true })

/-- `rbacService.removeRole(userId, roleName)` (rbacService.js lines
381-403): find the role by name (no active filter), find the ACTIVE
assignment row for the pair (else throw), and update its `is_active`
flag to false — the row is never deleted. -/
def removeRole (db : DB) (userId : Nat) (roleName : String) : Except RbacError DB :=
  match db.roles.find? (fun r => r.name == roleName) with
  | none => Except.error (RbacError.roleMissing roleName)
  | some role =>
    match db.userRoles.find? (fun ur =>
        ur.user_id == userId && ur.role_id == role.id && ur.is_active) with
    | none => Except.error RbacError.lacksRole
    | some target =>
      Except.ok { db with userRoles := db.userRoles.map (fun ur =>
        if ur.id == target.id then { ur with is_active := false } else ur) }

/-- Sequelize `role.setPermissions(perms)` on the belongsToMany
association through `role_permissions`: grant rows of this role whose
permission is no longer in the new set are deleted, rows already present
are kept, and missing pairs are inserted (with no granting user). -/
def setPermissions (db : DB) (roleId : Nat) (permIds : List Nat) : DB :=
  { db with rolePermissions :=
      (db.rolePermissions.filter (fun rp =>
        !(rp.role_id == roleId) || permIds.contains rp.permission_id)) ++
      ((permIds.filter (fun pid =>
        !(db.rolePermissions.any (fun rp =>
          rp.role_id == roleId && rp.permission_id == pid)))).map
        (fun pid => { role_id := roleId, permission_id := pid, granted_by := none })) }

/-- Outcome of the role-mutation controller endpoints
(rbacController.js): either a terminal error response or the updated
store. -/
inductive RoleOpResult where
  /-- 404 Role not found -/
  | roleMissing
  /-- 400 Cannot modify or delete system roles (InvalidOperationError) -/
  | invalidOp
  /-- 400 Cannot delete role: `count` users are assigned to this role
  (ConflictError, reporting the count) -/
  | inUse (count : Nat)
  /-- 200, with the store after the mutation -/
  | ok (db : DB)
deriving Repr, DecidableEq

/-- The number of active `user_roles` rows referencing `roleId`
(rbacController.js lines 293-295). -/
def activeAssignmentCount (db : DB) (roleId : Nat) : Nat :=
  (db.userRoles.filter (fun ur => ur.role_id == roleId && ur.is_active)).length

/-- `rbacController.deleteRole` (rbacController.js lines 271-318): 404
when the role is absent; refuse system roles; refuse (reporting the
count) while any active assignment references the role; otherwise
destroy the row. -/
def deleteRole (db : DB) (roleId : Nat) : RoleOpResult :=
  match db.roles.find? (fun r => r.id == roleId) with
  | none => RoleOpResult.roleMissing
  | some role =>
    if role.is_system then RoleOpResult.invalidOp
    else if activeAssignmentCount db roleId > 0 then
      RoleOpResult.inUse (activeAssignmentCount db roleId)
    else
      RoleOpResult.ok { db with roles := db.roles.eraseP (fun r => r.id == roleId) }

/-- `rbacController.updateRole` (rbacController.js lines 195-266): 404
when the role is absent; refuse system roles; update the supplied scalar
fields; when `permission_ids` is supplied, look up the existing ACTIVE
permissions among the supplied ids and fully replace the role's grant
set with them via `setPermissions`, then stamp `granted_by` on the new
grants. -/
def updateRole (db : DB) (roleId : Nat) (name2 display2 descr2 : Option String)
    (permissionIds : Option (List Nat)) (callerId : Nat) : RoleOpResult :=
  match db.roles.find? (fun r => r.id == roleId) with
  | none => RoleOpResult.roleMissing
  | some role =>
    if role.is_system then RoleOpResult.invalidOp
    else
      let db1 := { db with roles := db.roles.map (fun r =>
        if r.id == roleId then
          { r with name := name2.getD r.name,
                   display_name := display2.getD r.display_name,
                   descr := descr2.getD r.descr }
        else r) }
      match permissionIds with
      | none => RoleOpResult.ok db1
      | some pids =>
        let newIds := (db1.permissions.filter (fun p =>
          pids.contains p.id && p.is_active)).map Permission.id
        let db2 := setPermissions db1 roleId newIds
        RoleOpResult.ok { db2 with rolePermissions := db2.rolePermissions.map (fun rp =>
          if rp.role_id == roleId && newIds.contains rp.permission_id then
            { rp with granted_by := some callerId }
          else rp) }

/-- The store produced by the successful permission-replacement branch
of `updateRole` (the `ok` payload), named so theorems can speak about
it; `updateRole_ok` below proves it is exactly what `updateRole`
returns. -/
def updateRoleAfter (db : DB) (roleId : Nat) (name2 display2 descr2 : Option String)
    (pids : List Nat) (callerId : Nat) : DB :=
  let db1 := { db with roles := db.roles.map (fun r =>
    if r.id == roleId then
      { r with name := name2.getD r.name,
               display_name := display2.getD r.display_name,
               descr := descr2.getD r.descr }
    else r) }
  let newIds := (db1.permissions.filter (fun p =>
    pids.contains p.id && p.is_active)).map Permission.id
  let db2 := setPermissions db1 roleId newIds
  { db2 with rolePermissions := db2.rolePermissions.map (fun rp =>
      if rp.role_id == roleId && newIds.contains rp.permission_id then
        { rp with granted_by := some callerId }
      else rp) }

/-- Seed data for one default role (rbacService.js lines 12-49). -/
structure RoleSeed where
  name : String
  display_name : String
  descr : String
  is_system : Bool
deriving Repr, DecidableEq

/-- The six built-in roles created by `initializeDefaultRoles`. -/
def defaultRoles : List RoleSeed :=
  [ { name := "super_admin", display_name := "Super Administrator",
      descr := "Full system access with all permissions", is_system := true },
    { name := "admin", display_name := "Administrator",
      descr := "System administrator with management permissions", is_system := true },
    { name := "guide", display_name := "Tour Guide",
      descr := "Can create and manage routes and voice guides", is_system := true },
    { name := "moderator", display_name := "Content Moderator",
      descr := "Can moderate content and manage user reports", is_system := true },
    { name := "tourist", display_name := "Tourist",
      descr := "Tourist with basic access to view and use routes", is_system := true },
    { name := "user", display_name := "Regular User",
      descr := "Standard user with basic permissions", is_system := true } ]

/-- `Role.findOrCreate({where: {name}, defaults})` for one seed
(rbacService.js lines 52-57): create the row (active, with a fresh id)
only when no role of that name exists. -/
def findOrCreateRole (db : DB) (rd : RoleSeed) : DB :=
  if db.roles.any (fun r => r.name == rd.name) then db
  else
    { db with
        roles := db.roles ++
          [{ id := db.nextId, name := rd.name, display_name := rd.display_name,
             descr := rd.descr, is_active := true, is_system := rd.is_system }],
        nextId := db.nextId + 1 }

/-- `initializeDefaultRoles` embedded (rbacService.js lines 9-64). -/
def initDefaultRoles (db : DB) : DB :=
  defaultRoles.foldl findOrCreateRole db

/-- Seed data for one default permission (rbacService.js lines 71-118). -/
structure PermSeed where
  name : String
  display_name : String
  resource : String
  action : String
deriving Repr, DecidableEq

/-- The catalog of default permissions created by
`initializeDefaultPermissions`. -/
def defaultPermissions : List PermSeed :=
  [ ⟨"user.create", "Create Users", "users", "create"⟩,
    ⟨"user.read", "View Users", "users", "read"⟩,
    ⟨"user.update", "Update Users", "users", "update"⟩,
    ⟨"user.delete", "Delete Users", "users", "delete"⟩,
    ⟨"user.manage", "Manage All Users", "users", "manage"⟩,
    ⟨"route.create", "Create Routes", "routes", "create"⟩,
    ⟨"route.read", "View Routes", "routes", "read"⟩,
    ⟨"route.update", "Update Routes", "routes", "update"⟩,
    ⟨"route.delete", "Delete Routes", "routes", "delete"⟩,
    ⟨"route.manage", "Manage All Routes", "routes", "manage"⟩,
    ⟨"message.create", "Create Messages", "messages", "create"⟩,
    ⟨"message.read", "View Messages", "messages", "read"⟩,
    ⟨"message.update", "Update Messages", "messages", "update"⟩,
    ⟨"message.delete", "Delete Messages", "messages", "delete"⟩,
    ⟨"message.manage", "Manage All Messages", "messages", "manage"⟩,
    ⟨"tourist.create", "Create Tourist Registrations", "tourist", "create"⟩,
    ⟨"tourist.read", "View Tourist Registrations", "tourist", "read"⟩,
    ⟨"tourist.update", "Update Tourist Registrations", "tourist", "update"⟩,
    ⟨"tourist.delete", "Delete Tourist Registrations", "tourist", "delete"⟩,
    ⟨"tourist.manage", "Manage All Tourist Registrations", "tourist", "manage"⟩,
    ⟨"voice_guide.create", "Create Voice Guides", "voice_guides", "create"⟩,
    ⟨"voice_guide.read", "View Voice Guides", "voice_guides", "read"⟩,
    ⟨"voice_guide.update", "Update Voice Guides", "voice_guides", "update"⟩,
    ⟨"voice_guide.delete", "Delete Voice Guides", "voice_guides", "delete"⟩,
    ⟨"voice_guide.manage", "Manage All Voice Guides", "voice_guides", "manage"⟩,
    ⟨"system.admin", "System Administration", "system", "admin"⟩,
    ⟨"system.logs", "View System Logs", "system", "logs"⟩,
    ⟨"system.analytics", "View Analytics", "system", "analytics"⟩,
    ⟨"role.create", "Create Roles", "roles", "create"⟩,
    ⟨"role.read", "View Roles", "roles", "read"⟩,
    ⟨"role.update", "Update Roles", "roles", "update"⟩,
    ⟨"role.delete", "Delete Roles", "roles", "delete"⟩,
    ⟨"role.assign", "Assign Roles to Users", "roles", "assign"⟩ ]

/-- `Permission.findOrCreate({where: {name}, defaults})` for one seed
(rbacService.js lines 121-129), the default description being built from
the action and resource. -/
def findOrCreatePermission (db : DB) (pd : PermSeed) : DB :=
  if db.permissions.any (fun p => p.name == pd.name) then db
  else
    { db with
        permissions := db.permissions ++
          [{ id := db.nextId, name := pd.name, display_name := pd.display_name,
             descr := "Permission to " ++ pd.action ++ " " ++ pd.resource,
             resource := pd.resource, action := pd.action, is_active := true }],
        nextId := db.nextId + 1 }

/-- `initializeDefaultPermissions` embedded (rbacService.js lines 69-136). -/
def initDefaultPermissions (db : DB) : DB :=
  defaultPermissions.foldl findOrCreatePermission db

/-- The hardcoded grant list of the `admin` role (rbacService.js lines
152-166). -/
def adminPermNames : List String :=
  [ "user.read", "user.update", "user.manage",
    "route.read", "route.update", "route.manage",
    "message.read", "message.update", "message.manage",
    "tourist.read", "tourist.update", "tourist.manage",
    "voice_guide.read", "voice_guide.update", "voice_guide.manage",
    "system.logs", "system.analytics",
    "role.read", "role.assign" ]

/-- The hardcoded grant list of the `guide` role (rbacService.js lines
173-184). -/
def guidePermNames : List String :=
  [ "route.create", "route.read", "route.update", "route.delete",
    "voice_guide.create", "voice_guide.read", "voice_guide.update", "voice_guide.delete",
    "message.create", "message.read", "message.update", "message.delete",
    "tourist.read" ]

/-- The hardcoded grant list of the `moderator` role (rbacService.js
lines 191-203). -/
def moderatorPermNames : List String :=
  [ "route.read", "route.update",
    "message.read", "message.update", "message.delete",
    "tourist.read", "tourist.update",
    "voice_guide.read", "voice_guide.update",
    "user.read" ]

/-- The hardcoded grant list of the `tourist` role (rbacService.js lines
210-221). -/
def touristPermNames : List String :=
  [ "route.read", "voice_guide.read",
    "tourist.create", "tourist.read", "tourist.update",
    "message.read" ]

/-- The hardcoded grant list of the `user` role (rbacService.js lines
228-238). -/
def userPermNames : List String :=
  [ "route.read", "voice_guide.read", "message.read" ]

/-- One step of `assignDefaultRolePermissions`: find the role by name
(skip when absent), collect the permissions whose names are in the
hardcoded list, and replace the role's grant set with them. -/
def setRolePermsByNames (db : DB) (roleName : String) (permNames : List String) : DB :=
  match db.roles.find? (fun r => r.name == roleName) with
  | none => db
  | some r =>
    setPermissions db r.id
      ((db.permissions.filter (fun p => permNames.contains p.name)).map Permission.id)

/-- The super_admin step of `assignDefaultRolePermissions` (rbacService.js
lines 144-148): the full ACTIVE permission catalog. -/
def setSuperAdminPerms (db : DB) : DB :=
  match db.roles.find? (fun r => r.name == "super_admin") with
  | none => db
  | some r =>
    setPermissions db r.id ((db.permissions.filter Permission.is_active).map Permission.id)

/-- `assignDefaultRolePermissions` embedded (rbacService.js lines
141-248): the six replacement steps in source order. -/
def assignDefaultRolePerms (db : DB) : DB :=
  setRolePermsByNames
    (setRolePermsByNames
      (setRolePermsByNames
        (setRolePermsByNames
          (setRolePermsByNames (setSuperAdminPerms db) "admin" adminPermNames)
          "guide" guidePermNames)
        "moderator" moderatorPermNames)
      "tourist" touristPermNames)
    "user" userPermNames

/-- `initializeRBAC` embedded (rbacService.js lines 408-420): the three
idempotent steps in order. -/
def initRBAC (db : DB) : DB :=
  assignDefaultRolePerms (initDefaultPermissions (initDefaultRoles db))

/-- The names of the six built-in roles. -/
def defaultRoleNames : List String :=
  defaultRoles.map RoleSeed.name

/-- Generic shape shared by the six steps of
`assignDefaultRolePermissions`: find the role by name (skip when
absent) and replace its grant set with the permission ids selected by
`f` from the permission table; `setRolePermsByNames` and
`setSuperAdminPerms` are instances (see the lemmas relating them). -/
def setRolePermsWith (f : List Permission → List Nat) (d : DB) (roleName : String) : DB :=
  match d.roles.find? (fun r => r.name == roleName) with
  | none => d
  | some r => setPermissions d r.id (f d.permissions)

/-- The fold of grant-replacement steps over a list of (selector, role
name) pairs. -/
def foldOps (ops : List ((List Permission → List Nat) × String)) (d : DB) : DB :=
  ops.foldl (fun d2 op => setRolePermsWith op.1 d2 op.2) d

/-- The six steps of `assignDefaultRolePermissions`, in source order. -/
def defaultOps : List ((List Permission → List Nat) × String) :=
  [ (fun ps => (ps.filter Permission.is_active).map Permission.id, "super_admin"),
    (fun ps => (ps.filter (fun p => adminPermNames.contains p.name)).map Permission.id,
      "admin"),
    (fun ps => (ps.filter (fun p => guidePermNames.contains p.name)).map Permission.id,
      "guide"),
    (fun ps => (ps.filter (fun p => moderatorPermNames.contains p.name)).map Permission.id,
      "moderator"),
    (fun ps => (ps.filter (fun p => touristPermNames.contains p.name)).map Permission.id,
      "tourist"),
    (fun ps => (ps.filter (fun p => userPermNames.contains p.name)).map Permission.id,
      "user") ]

/-- The grant rows of role `rid` are exactly the permission ids `S`:
every row of the role points into `S` and every id of `S` has a row. -/
def GrantSetIs (d : DB) (rid : Nat) (S : List Nat) : Prop :=
  (∀ rp ∈ d.rolePermissions, rp.role_id = rid → rp.permission_id ∈ S) ∧
  (∀ pid ∈ S, ∃ rp ∈ d.rolePermissions, rp.role_id = rid ∧ rp.permission_id = pid)

/-! ### Concrete stores used as counterexamples and witnesses -/

/-- A store whose single role is INACTIVE (`is_active = false`) yet
granted an active permission, assigned to user 1 by an active,
unexpired assignment. -/
def exDB1 : DB :=
  { users := [⟨1, "user"⟩],
    roles := [⟨10, "reader", "Reader", "", false, false⟩],
    permissions := [⟨20, "route.read", "View Routes", "", "routes", "read", true⟩],
    userRoles := [⟨30, 1, 10, none, 0, none, true⟩],
    rolePermissions := [⟨10, 20, none⟩],
    nextId := 100 }

/-- A store whose single assignment is active but EXPIRED
(`expires_at = 2`, checked at time 5), to an active role with an active
permission. -/
def exDB1b : DB :=
  { users := [⟨1, "user"⟩],
    roles := [⟨10, "reader", "Reader", "", true, false⟩],
    permissions := [⟨20, "route.read", "View Routes", "", "routes", "read", true⟩],
    userRoles := [⟨30, 1, 10, none, 0, some 2, true⟩],
    rolePermissions := [⟨10, 20, none⟩],
    nextId := 100 }

/-- A store where user 5 exists but holds no role and hence no
permission at all. -/
def exDB8 : DB :=
  { users := [⟨5, "user"⟩],
    roles := [],
    permissions := [],
    userRoles := [],
    rolePermissions := [],
    nextId := 50 }

/-- A request by user 5 targeting resource 9 whose BODY claims
`created_by = 5`. -/
def exReq8 : Request :=
  { user := some ⟨5, "user"⟩, paramsId := some 9, bodyOwner := some 5 }

/-- A store where user 7 has the legacy role but no assignment rows at
all. -/
def exDB2 : DB :=
  { users := [⟨7, "user"⟩],
    roles := [⟨10, "guide", "Tour Guide", "", true, true⟩],
    permissions := [⟨20, "route.manage", "Manage All Routes", "", "routes", "manage", true⟩],
    userRoles := [],
    rolePermissions := [⟨10, 20, none⟩],
    nextId := 100 }

/-- A store with a system role 1, a non-system role 2 with one active
assignment, and a non-system role 3 with none. -/
def exDB5 : DB :=
  { users := [⟨1, "user"⟩],
    roles := [⟨1, "admin", "Administrator", "", true, true⟩,
              ⟨2, "editors", "Editors", "", true, false⟩,
              ⟨3, "temp", "Temporary", "", true, false⟩],
    permissions := [],
    userRoles := [⟨40, 1, 2, none, 0, none, true⟩],
    rolePermissions := [⟨2, 33, none⟩],
    nextId := 100 }

/-- A store with a custom (non-system) moderator-like role 2 holding
five grants, assigned to user 1 only. -/
def exDB6 : DB :=
  { users := [⟨1, "user"⟩],
    roles := [⟨2, "moderator", "Content Moderator", "", true, false⟩],
    permissions := [⟨31, "route.read", "View Routes", "", "routes", "read", true⟩,
                    ⟨32, "route.update", "Update Routes", "", "routes", "update", true⟩,
                    ⟨33, "message.read", "View Messages", "", "messages", "read", true⟩,
                    ⟨34, "message.update", "Update Messages", "", "messages", "update", true⟩,
                    ⟨35, "message.delete", "Delete Messages", "", "messages", "delete", true⟩],
    userRoles := [⟨40, 1, 2, none, 0, none, true⟩],
    rolePermissions := [⟨2, 31, none⟩, ⟨2, 32, none⟩, ⟨2, 33, none⟩,
                        ⟨2, 34, none⟩, ⟨2, 35, none⟩],
    nextId := 100 }

/-- A store with one user and one active, non-system role and no
assignments yet. -/
def exDB4 : DB :=
  { users := [⟨1, "user"⟩],
    roles := [⟨2, "editors", "Editors", "", true, false⟩],
    permissions := [],
    userRoles := [],
    rolePermissions := [],
    nextId := 50 }

/-- The assignment row created by `assignRole exDB4 1 "editors"`. -/
def exUR4 : UserRole := ⟨50, 1, 2, some 9, 100, none, true⟩

/-- `exDB4` after that first assignment. -/
def exDB4a : DB :=
  { exDB4 with userRoles := [exUR4], nextId := 51 }

/-- `exDB4a` after `removeRole`: the same row, deactivated. -/
def exDB4b : DB :=
  { exDB4 with userRoles := [⟨50, 1, 2, some 9, 100, none, false⟩], nextId := 51 }

/-- The reactivated row returned by the re-assignment. -/
def exUR4c : UserRole := ⟨50, 1, 2, some 7, 102, none, true⟩

/-- `exDB4b` after re-assigning: the original row reactivated in place. -/
def exDB4c : DB :=
  { exDB4 with userRoles := [exUR4c], nextId := 51 }

/-- A store holding one custom (non-system) role with a grant row and
one assignment, to run the bootstrap against. -/
def exDB7 : DB :=
  { users := [],
    roles := [⟨3, "editors", "Editors", "", true, false⟩],
    permissions := [],
    userRoles := [⟨4, 1, 3, none, 0, none, true⟩],
    rolePermissions := [⟨3, 99, none⟩],
    nextId := 10 }

/-! ### Helper lemmas -/

theorem nodup_foldl_setInsert (l : List String) (acc : List String) (h : acc.Nodup) :
    (l.foldl setInsert acc).Nodup := by
  induction l generalizing acc with
  | nil => simpa using h
  | cons a t ih =>
    simp only [List.foldl_cons]
    apply ih
    unfold setInsert
    by_cases hc : a ∈ acc
    · simpa [hc] using h
    · simp [hc, List.nodup_append, h]

/-- Membership form of the `hasPermission` query: the Bool computation
holds iff the witnessing rows exist in the store. -/
theorem hasPermission_iff (db : DB) (uid : Nat) (x : String) :
    hasPermission db uid x = true ↔
      ((∃ u ∈ db.users, u.id = uid) ∧
       ∃ ur ∈ db.userRoles, ur.user_id = uid ∧ ur.is_active = true ∧
         ∃ r ∈ db.roles, r.id = ur.role_id ∧
           ∃ rp ∈ db.rolePermissions, rp.role_id = r.id ∧
             ∃ p ∈ db.permissions, p.id = rp.permission_id ∧
               p.is_active = true ∧ p.name = x) := by
  simp only [hasPermission, Bool.and_eq_true, List.any_eq_true, beq_iff_eq, and_assoc]

theorem find?_append_false {α : Type} (l1 l2 : List α) (p : α → Bool)
    (h : ∀ x ∈ l1, p x = false) : (l1 ++ l2).find? p = l2.find? p := by
  induction l1 with
  | nil => rfl
  | cons a t ih =>
    have ha : ¬ (p a = true) := by simp [h a (List.mem_cons_self a t)]
    rw [List.cons_append, List.find?_cons_of_neg _ ha]
    exact ih (fun x hx => h x (List.mem_cons_of_mem a hx))

theorem find?_eq_some_split {α : Type} (l : List α) (p : α → Bool) (e : α)
    (h : l.find? p = some e) :
    ∃ l1 l2, l = l1 ++ e :: l2 ∧ (∀ x ∈ l1, p x = false) ∧ p e = true := by
  induction l with
  | nil => cases h
  | cons a t ih =>
    by_cases hp : p a = true
    · rw [List.find?_cons_of_pos _ hp] at h
      injection h with he
      subst he
      refine ⟨[], t, rfl, ?_, hp⟩
      intro x hx
      cases hx
    · rw [List.find?_cons_of_neg _ hp] at h
      obtain ⟨l1, l2, heq, hall, hpe⟩ := ih h
      refine ⟨a :: l1, l2, by rw [heq, List.cons_append], ?_, hpe⟩
      intro x hx
      rcases List.mem_cons.mp hx with h1 | h1
      · subst h1
        simpa using hp
      · exact hall x h1

theorem nodup_map_split {α β : Type} (f : α → β) (L1 L2 : List α) (e : α)
    (h : ((L1 ++ e :: L2).map f).Nodup) :
    (∀ x ∈ L1, f x ≠ f e) ∧ (∀ x ∈ L2, f x ≠ f e) := by
  rw [List.map_append, List.map_cons, List.nodup_append] at h
  obtain ⟨h1, h2, hdis⟩ := h
  rw [List.nodup_cons] at h2
  constructor
  · intro x hx heq
    exact hdis (List.mem_map_of_mem f hx) (heq ▸ List.mem_cons_self _ _)
  · intro x hx heq
    exact h2.1 (heq ▸ List.mem_map_of_mem f hx)

theorem map_ite_of_ne_id (L : List UserRole) (i : Nat) (g : UserRole → UserRole)
    (h : ∀ x ∈ L, x.id ≠ i) :
    L.map (fun x => if x.id == i then g x else x) = L := by
  induction L with
  | nil => rfl
  | cons a t ih =>
    have ha : (a.id == i) = false := by
      simp [h a (List.mem_cons_self a t)]
    simp only [List.map_cons, ha, Bool.false_eq_true, if_false]
    rw [ih (fun x hx => h x (List.mem_cons_of_mem a hx))]

/-- A role found among the ACTIVE roles by name is also what the
name-only lookup of `removeRole` returns, provided role names are unique
(they carry a unique index in the schema). -/
theorem find_role_name_only (rs : List Role) (rn : String) (role : Role)
    (hNames : (rs.map Role.name).Nodup)
    (hrole : rs.find? (fun r => r.name == rn && r.is_active) = some role) :
    rs.find? (fun r => r.name == rn) = some role := by
  obtain ⟨R1, R2, heq, hall, hpe⟩ := find?_eq_some_split _ _ _ hrole
  rw [Bool.and_eq_true, beq_iff_eq] at hpe
  subst heq
  obtain ⟨hne1, _⟩ := nodup_map_split Role.name R1 R2 role hNames
  rw [find?_append_false]
  · exact List.find?_cons_of_pos _ (by simp [hpe.1])
  · intro x hx
    have hxne : x.name ≠ rn := by
      rw [← hpe.1]
      exact hne1 x hx
    simp [hxne]

/-- Canonical shape of the store after a successful `assignRole`: the
roles table is untouched, the returned assignment row is active with the
requested audit fields, and the assignments table splits around that row
with no other row for the (user, role) pair before it and no other row
sharing its id. -/
theorem assign_canonical (db : DB) (uid : Nat) (rn : String) (by1 : Option Nat)
    (t1 : Nat) (db1 : DB) (ur1 : UserRole) (role : Role)
    (hIds : (db.userRoles.map UserRole.id).Nodup)
    (hBound : ∀ ur ∈ db.userRoles, ur.id < db.nextId)
    (hrole : db.roles.find? (fun r => r.name == rn && r.is_active) = some role)
    (h : assignRole db uid rn by1 t1 = Except.ok (db1, ur1)) :
    db1.roles = db.roles ∧ db1.users = db.users ∧
    db1.permissions = db.permissions ∧ db1.rolePermissions = db.rolePermissions ∧
    ur1.user_id = uid ∧ ur1.role_id = role.id ∧ ur1.is_active = true ∧
    ur1.assigned_by = by1 ∧ ur1.assigned_at = t1 ∧
    ∃ K1 K2, db1.userRoles = K1 ++ ur1 :: K2 ∧
      (∀ x ∈ K1, (x.user_id == uid && x.role_id == role.id) = false) ∧
      (∀ x ∈ K1, x.id ≠ ur1.id) ∧ (∀ x ∈ K2, x.id ≠ ur1.id) := by
  simp only [assignRole, hrole] at h
  split at h
  · rename_i e hex
    split at h
    · cases h
    · rename_i hact
      injection h with h2
      injection h2 with hA hB
      subst hA
      subst hB
      obtain ⟨L1, L2, hsplit, hfalse, hPe⟩ := find?_eq_some_split _ _ _ hex
      rw [hsplit] at hIds
      obtain ⟨hne1, hne2⟩ := nodup_map_split UserRole.id L1 L2 e hIds
      have hPe2 := hPe
      rw [Bool.and_eq_true, beq_iff_eq, beq_iff_eq] at hPe2
      refine ⟨rfl, rfl, rfl, rfl, hPe2.1, hPe2.2, rfl, rfl, rfl, L1, L2, ?_, hfalse,
        hne1, hne2⟩
      show (db.userRoles.map fun ur =>
        if ur.id == e.id then
          { ur with is_active := true, assigned_by := by1, assigned_at := t1 }
        else ur) = _
      rw [hsplit, List.map_append, List.map_cons,
        map_ite_of_ne_id L1 e.id _ hne1, map_ite_of_ne_id L2 e.id _ hne2]
      simp only [beq_self_eq_true, if_true]
  · rename_i hex
    injection h with h2
    injection h2 with hA hB
    subst hA
    subst hB
    have hall : ∀ x ∈ db.userRoles,
        (x.user_id == uid && x.role_id == role.id) = false := by
      intro x hx
      have := List.find?_eq_none.mp hex x hx
      simpa using this
    refine ⟨rfl, rfl, rfl, rfl, rfl, rfl, rfl, rfl, rfl,
      db.userRoles, [], rfl, hall, ?_, by intro x hx; cases hx⟩
    intro x hx
    exact Nat.ne_of_lt (hBound x hx)

theorem map_id_map_ite (L : List UserRole) (i : Nat) (g : UserRole → UserRole)
    (hg : ∀ x, (g x).id = x.id) :
    (L.map (fun x => if x.id == i then g x else x)).map UserRole.id =
      L.map UserRole.id := by
  induction L with
  | nil => rfl
  | cons a t ih =>
    simp only [List.map_cons]
    rw [ih]
    by_cases hc : (a.id == i) = true
    · simp [hc, hg a]
    · simp only [Bool.not_eq_true] at hc
      simp [hc]

/-! ### C1: what hasPermission actually decides -/

/-- C1 (counterexample): the claim "hasPermission(P, X) is true iff X is
granted to an active role assigned through an active, non-expired
assignment" fails on the code: in `exDB1` the only role is inactive and
in `exDB1b` the only assignment is expired, yet `hasPermission` returns
true in both stores while the claim's predicate is false. -/
theorem c1_counterexample :
    (hasPermission exDB1 1 "route.read" = true ∧
     specHasPermission exDB1 0 1 "route.read" = false) ∧
    (hasPermission exDB1b 1 "route.read" = true ∧
     specHasPermission exDB1b 5 1 "route.read" = false) := by
  exact ⟨⟨by decide, by decide⟩, ⟨by decide, by decide⟩⟩

/-- C1 (amended): `hasPermission db P X` is true iff X is the name of an
active permission granted to at least one role linked to P by an active
role assignment of an existing user; neither the role's own `is_active`
flag nor the assignment's `expires_at` is consulted. -/
theorem c1_amended (db : DB) (uid : Nat) (x : String) :
    hasPermission db uid x = true ↔
      ((∃ u ∈ db.users, u.id = uid) ∧
       ∃ ur ∈ db.userRoles, ur.user_id = uid ∧ ur.is_active = true ∧
         ∃ r ∈ db.roles, r.id = ur.role_id ∧
           ∃ rp ∈ db.rolePermissions, rp.role_id = r.id ∧
             ∃ p ∈ db.permissions, p.id = rp.permission_id ∧
               p.is_active = true ∧ p.name = x) :=
  hasPermission_iff db uid x

/-! ### C4: the assignment lifecycle -/

/-- C4: after a successful `assignRole` (role names and assignment ids
unique, fresh-id counter above every existing id): assigning the same
role to the same user again while the assignment is active fails with
the ConflictError "already has this role" and returns no new store;
`removeRole` succeeds by flipping the assignment's active flag, keeping
the table's length and ids (no deletion); re-assigning afterwards
succeeds by reactivating the ORIGINAL row — same id, refreshed
assigned_by and assigned_at — creating no duplicate. -/
theorem c4_assignment_lifecycle (db : DB) (uid : Nat) (rn : String)
    (by1 by2 by3 : Option Nat) (t1 t2 t3 : Nat) (db1 : DB) (ur1 : UserRole)
    (hNames : (db.roles.map Role.name).Nodup)
    (hIds : (db.userRoles.map UserRole.id).Nodup)
    (hBound : ∀ ur ∈ db.userRoles, ur.id < db.nextId)
    (h : assignRole db uid rn by1 t1 = Except.ok (db1, ur1)) :
    assignRole db1 uid rn by2 t2 = Except.error RbacError.alreadyHasRole ∧
    (∃ db2, removeRole db1 uid rn = Except.ok db2 ∧
      db2.userRoles.length = db1.userRoles.length ∧
      db2.userRoles.map UserRole.id = db1.userRoles.map UserRole.id ∧
      (∃ db3 ur3, assignRole db2 uid rn by3 t3 = Except.ok (db3, ur3) ∧
        ur3.id = ur1.id ∧ ur3.is_active = true ∧
        ur3.assigned_by = by3 ∧ ur3.assigned_at = t3 ∧
        db3.userRoles.length = db1.userRoles.length ∧
        db3.userRoles.map UserRole.id = db1.userRoles.map UserRole.id)) := by
  cases hrole : db.roles.find? (fun r => r.name == rn && r.is_active) with
  | none =>
    simp only [assignRole, hrole] at h
    cases h
  | some role =>
    obtain ⟨hroles, husers, hperms, hrps, hu1, hr1, hact1, hby1, hat1, K1, K2,
      hsplit, hK1P, hK1id, hK2id⟩ :=
      assign_canonical db uid rn by1 t1 db1 ur1 role hIds hBound hrole h
    have hPur1 : (ur1.user_id == uid && ur1.role_id == role.id) = true := by
      simp [hu1, hr1]
    have hrole1 : db1.roles.find? (fun r => r.name == rn && r.is_active) = some role := by
      rw [hroles]; exact hrole
    have hfind1 : db1.userRoles.find?
        (fun ur => ur.user_id == uid && ur.role_id == role.id) = some ur1 := by
      rw [hsplit, find?_append_false _ _ _ hK1P]
      exact List.find?_cons_of_pos _ hPur1
    have ha : assignRole db1 uid rn by2 t2 = Except.error RbacError.alreadyHasRole := by
      simp only [assignRole, hrole1, hfind1]
      rw [if_pos hact1]
    have hname1 : db1.roles.find? (fun r => r.name == rn) = some role := by
      rw [hroles]
      exact find_role_name_only db.roles rn role hNames hrole
    have hfindact : db1.userRoles.find?
        (fun ur => ur.user_id == uid && ur.role_id == role.id && ur.is_active) =
        some ur1 := by
      rw [hsplit, find?_append_false]
      · exact List.find?_cons_of_pos _ (by simp [hu1, hr1, hact1])
      · intro x hx
        simp [hK1P x hx]
    have hrm : removeRole db1 uid rn = Except.ok
        { db1 with userRoles := db1.userRoles.map (fun x =>
            if x.id == ur1.id then { x with is_active := false } else x) } := by
      simp only [removeRole, hname1, hfindact]
    have hdb2ur : (db1.userRoles.map (fun x =>
        if x.id == ur1.id then { x with is_active := false } else x)) =
        K1 ++ ({ ur1 with is_active := false }) :: K2 := by
      rw [hsplit, List.map_append, List.map_cons,
        map_ite_of_ne_id K1 ur1.id _ hK1id, map_ite_of_ne_id K2 ur1.id _ hK2id]
      simp only [beq_self_eq_true, if_true]
    have hlen2 : (db1.userRoles.map (fun x =>
        if x.id == ur1.id then { x with is_active := false } else x)).length =
        db1.userRoles.length := List.length_map _ _
    have hids2 : (db1.userRoles.map (fun x =>
        if x.id == ur1.id then { x with is_active := false } else x)).map UserRole.id =
        db1.userRoles.map UserRole.id :=
      map_id_map_ite _ _ _ (fun x => rfl)
    refine ⟨ha, _, hrm, hlen2, hids2, ?_⟩
    have hrole2 : ({ db1 with userRoles := db1.userRoles.map (fun x =>
        if x.id == ur1.id then { x with is_active := false } else x) } : DB).roles.find?
        (fun r => r.name == rn && r.is_active) = some role := hrole1
    have hfind2 : (K1 ++ ({ ur1 with is_active := false }) :: K2).find?
        (fun ur => ur.user_id == uid && ur.role_id == role.id) =
        some ({ ur1 with is_active := false }) := by
      rw [find?_append_false _ _ _ hK1P]
      exact List.find?_cons_of_pos _ (by simp [hu1, hr1])
    have hfind2' : ({ db1 with userRoles := db1.userRoles.map (fun x =>
        if x.id == ur1.id then { x with is_active := false } else x) } : DB).userRoles.find?
        (fun ur => ur.user_id == uid && ur.role_id == role.id) =
        some ({ ur1 with is_active := false }) := by
      show (db1.userRoles.map (fun x =>
        if x.id == ur1.id then { x with is_active := false } else x)).find? _ = _
      rw [hdb2ur]
      exact hfind2
    have hass2 : assignRole
        { db1 with userRoles := db1.userRoles.map (fun x =>
            if x.id == ur1.id then { x with is_active := false } else x) }
        uid rn by3 t3 = Except.ok
          ({ db1 with userRoles := (db1.userRoles.map (fun x =>
              if x.id == ur1.id then { x with is_active := false } else x)).map (fun x =>
              if x.id == ur1.id then
                { x with is_active := true, assigned_by := by3, assigned_at := t3 }
              else x) },
           { ur1 with is_active := true, assigned_by := by3, assigned_at := t3 }) := by
      simp only [assignRole, hrole2, hfind2']
      rw [if_neg (by simp)]
    refine ⟨_, _, hass2, rfl, rfl, rfl, rfl, ?_, ?_⟩
    · rw [List.length_map, List.length_map]
    · exact (map_id_map_ite _ ur1.id
        (fun x => { x with is_active := true, assigned_by := by3, assigned_at := t3 })
        (fun x => rfl)).trans hids2

/-- C4 (witness): with the concrete store `exDB4`, the first assignment
yields row 50; a second assignment is the conflict; removal deactivates
row 50 in place; re-assignment reactivates the same row id 50 with the
new assigner and timestamp. -/
theorem c4_assignment_lifecycle_witness :
    assignRole exDB4 1 "editors" (some 9) 100 = Except.ok (exDB4a, exUR4) ∧
    assignRole exDB4a 1 "editors" (some 9) 101 = Except.error RbacError.alreadyHasRole ∧
    removeRole exDB4a 1 "editors" = Except.ok exDB4b ∧
    assignRole exDB4b 1 "editors" (some 7) 102 = Except.ok (exDB4c, exUR4c) ∧
    exUR4c.id = exUR4.id ∧ exDB4c.userRoles.length = exDB4a.userRoles.length := by
  obtain ⟨ha, _⟩ := c4_assignment_lifecycle exDB4 1 "editors" (some 9) (some 9) (some 7)
    100 101 102 exDB4a exUR4 (by decide) (by decide) (by decide) (by rfl)
  exact ⟨by rfl, ha, by rfl, by rfl, by decide, by decide⟩

/-! ### C2: requireRole semantics -/

/-- C2: for an authenticated principal that exists in the store and
carries a (truthy) legacy role, the `requireRole` gate passes iff the
legacy scalar role is in the required list OR some role name reachable
through one of the principal's active RBAC assignments is in the list —
the two mechanisms are OR'ed. -/
theorem c2_requireRole (db : DB) (req : Request) (u : User) (roles : List String)
    (hu : req.user = some u) (hrol : u.rol ≠ "")
    (hex : ∃ u2 ∈ db.users, u2.id = u.id) :
    requireRole db req roles = Decision.next ↔
      (u.rol ∈ roles ∨
       ∃ ur ∈ db.userRoles, ur.user_id = u.id ∧ ur.is_active = true ∧
         ∃ r ∈ db.roles, r.id = ur.role_id ∧ r.name ∈ roles) := by
  have hexb : db.users.any (fun u2 => u2.id == u.id) = true := by
    obtain ⟨u2, hm, hid⟩ := hex
    simp only [List.any_eq_true, beq_iff_eq]
    exact ⟨u2, hm, hid⟩
  have hrbac :
      (((userActiveRoleNames db u.id).any (fun n => roles.contains n)) = true) ↔
        ∃ ur ∈ db.userRoles, ur.user_id = u.id ∧ ur.is_active = true ∧
          ∃ r ∈ db.roles, r.id = ur.role_id ∧ r.name ∈ roles := by
    simp only [userActiveRoleNames, hexb, if_true, List.elem_eq_mem, List.any_eq_true,
      List.mem_map, List.mem_flatMap, List.mem_filter, Bool.and_eq_true, beq_iff_eq,
      decide_eq_true_eq, exists_exists_and_eq_and]
    constructor
    · rintro ⟨r, ⟨ur, ⟨hm, h1, h2⟩, hrm, hrid⟩, hc⟩
      exact ⟨ur, hm, h1, h2, r, hrm, hrid, hc⟩
    · rintro ⟨ur, hm, h1, h2, r, hrm, hrid, hc⟩
      exact ⟨r, ⟨ur, ⟨hm, h1, h2⟩, hrm, hrid⟩, hc⟩
  have hlegacy : ((u.rol != "" && roles.contains u.rol) = true) ↔ u.rol ∈ roles := by
    simp [hrol]
  simp only [requireRole, hu]
  by_cases h1 : (u.rol != "" && roles.contains u.rol) = true
  · simp only [h1, if_true]
    exact iff_of_true (by trivial) (Or.inl (hlegacy.mp h1))
  · rw [if_neg h1]
    by_cases h2 : ((userActiveRoleNames db u.id).any (fun n => roles.contains n)) = true
    · simp only [h2, if_true]
      exact iff_of_true (by trivial) (Or.inr (hrbac.mp h2))
    · rw [if_neg h2]
      constructor
      · intro hcontra; cases hcontra
      · rintro (hl | hr)
        · exact absurd (hlegacy.mpr hl) h1
        · exact absurd (hrbac.mpr hr) h2

/-- C2 (witness): principal 7 of `exDB2` has legacy role user and no
RBAC assignments, and `requireRole(["user","admin"])` passes. -/
theorem c2_requireRole_witness :
    requireRole exDB2 ⟨some ⟨7, "user"⟩, none, none⟩ ["user", "admin"] = Decision.next ∧
    exDB2.userRoles = [] := by
  refine ⟨?_, rfl⟩
  have h := c2_requireRole exDB2 ⟨some ⟨7, "user"⟩, none, none⟩ ⟨7, "user"⟩
    ["user", "admin"] rfl (by decide) ⟨⟨7, "user"⟩, by decide, rfl⟩
  exact h.mpr (Or.inl (by decide))

/-! ### C3: the resolver fails closed -/

/-- C3: `getUserPermissions` always returns a deduplicated list; for an
unknown principal both resolver entry points return the empty set and
false rather than an error; and when the underlying query fails the
`catch` branches return the empty set and false — the resolver never
raises at its interface and fails closed. -/
theorem c3_fail_closed (db : DB) (q : Except String Unit) (uid : Nat) (x : String) :
    (getUserPermissionsSafe db q uid).Nodup ∧
    ((∀ u ∈ db.users, u.id ≠ uid) →
      getUserPermissionsSafe db q uid = [] ∧ hasPermissionSafe db q uid x = false) ∧
    (∀ e, q = Except.error e →
      getUserPermissionsSafe db q uid = [] ∧ hasPermissionSafe db q uid x = false) := by
  have hun : (∀ u ∈ db.users, u.id ≠ uid) →
      db.users.any (fun u => u.id == uid) = false := by
    intro h
    simp only [List.any_eq_false, beq_iff_eq]
    exact h
  refine ⟨?_, ?_, ?_⟩
  · cases q with
    | error e => simp [getUserPermissionsSafe]
    | ok v =>
      simp only [getUserPermissionsSafe, getUserPermissions]
      by_cases hc : db.users.any (fun u => u.id == uid) = true
      · simp only [hc, if_true]
        exact nodup_foldl_setInsert _ [] List.nodup_nil
      · simp only [Bool.not_eq_true] at hc
        simp [hc]
  · intro h
    cases q with
    | error e => simp [getUserPermissionsSafe, hasPermissionSafe]
    | ok v =>
      simp only [getUserPermissionsSafe, hasPermissionSafe, getUserPermissions,
        hasPermission, hun h, Bool.false_eq_true, if_false, Bool.false_and]
      exact ⟨by trivial, by trivial⟩
  · intro e he
    subst he
    simp [getUserPermissionsSafe, hasPermissionSafe]

/-- C3 (witness): in `exDB1` user 42 is unknown: both entry points are
empty/false, and a failing query also yields empty/false. -/
theorem c3_fail_closed_witness :
    (getUserPermissionsSafe exDB1 (Except.ok ()) 42).Nodup ∧
    (getUserPermissionsSafe exDB1 (Except.ok ()) 42 = [] ∧
     hasPermissionSafe exDB1 (Except.ok ()) 42 "route.read" = false) ∧
    (getUserPermissionsSafe exDB1 (Except.error "db down") 1 = [] ∧
     hasPermissionSafe exDB1 (Except.error "db down") 1 "route.read" = false) := by
  refine ⟨(c3_fail_closed exDB1 (Except.ok ()) 42 "route.read").1,
    (c3_fail_closed exDB1 (Except.ok ()) 42 "route.read").2.1 (by decide),
    (c3_fail_closed exDB1 (Except.error "db down") 1 "route.read").2.2 "db down" rfl⟩

/-! ### C9: requireOwnership -/

/-- C9: for an authenticated principal behind `requireOwnership` with a
configured resource model and an `:id` parameter (allowAdmin at its
default true): an admin principal (legacy role admin/super_admin, or
holder of the blanket `system.admin` permission) is allowed outright;
for a non-admin principal a missing resource denies with NotFoundError
(404), a resource whose owner field differs from the principal id denies
with AuthorizationError (403 OWNERSHIP_DENIED), and a resource the
principal owns is allowed. -/
theorem c9_requireOwnership (db : DB) (resources : List Resource) (req : Request)
    (u : User) (rid : Nat)
    (hu : req.user = some u) (hparam : req.paramsId = some rid) :
    ((u.rol = "admin" ∨ u.rol = "super_admin" ∨ hasPermission db u.id "system.admin" = true) →
      requireOwnership db resources ⟨true, true⟩ req = Decision.next) ∧
    (u.rol ≠ "admin" → u.rol ≠ "super_admin" →
     hasPermission db u.id "system.admin" = false →
      (resources.find? (fun r => r.id == rid) = none →
        requireOwnership db resources ⟨true, true⟩ req = Decision.resourceMissing) ∧
      (∀ r, resources.find? (fun r2 => r2.id == rid) = some r →
        (r.owner ≠ u.id →
          requireOwnership db resources ⟨true, true⟩ req = Decision.ownershipDenied) ∧
        (r.owner = u.id →
          requireOwnership db resources ⟨true, true⟩ req = Decision.next))) := by
  constructor
  · rintro (h | h | h) <;> simp [requireOwnership, hu, h]
  · intro h1 h2 h3
    have hadm : (u.rol == "admin" || u.rol == "super_admin") = false := by
      simp [h1, h2]
    constructor
    · intro hmiss
      simp [requireOwnership, hu, hadm, h3, hparam, hmiss]
    · intro r hfind
      constructor
      · intro hown
        simp [requireOwnership, hu, hadm, h3, hparam, hfind, hown]
      · intro hown
        simp [requireOwnership, hu, hadm, h3, hparam, hfind, hown]

/-- C9 (witness): in `exDB1` user 1 is no admin; with resource 9 owned
by 7 absent/foreign/owned the gate returns 404 / 403 / next, and a
legacy admin is allowed. -/
theorem c9_requireOwnership_witness :
    (requireOwnership exDB1 [] ⟨true, true⟩ ⟨some ⟨1, "user"⟩, some 9, none⟩ =
      Decision.resourceMissing) ∧
    (requireOwnership exDB1 [⟨9, 7⟩] ⟨true, true⟩ ⟨some ⟨1, "user"⟩, some 9, none⟩ =
      Decision.ownershipDenied) ∧
    (requireOwnership exDB1 [⟨9, 1⟩] ⟨true, true⟩ ⟨some ⟨1, "user"⟩, some 9, none⟩ =
      Decision.next) ∧
    (requireOwnership exDB1 [] ⟨true, true⟩ ⟨some ⟨3, "admin"⟩, some 9, none⟩ =
      Decision.next) := by
  refine ⟨?_, ?_, ?_, ?_⟩
  · exact ((c9_requireOwnership exDB1 [] ⟨some ⟨1, "user"⟩, some 9, none⟩ ⟨1, "user"⟩ 9
      rfl rfl).2 (by decide) (by decide) (by decide)).1 (by decide)
  · exact (((c9_requireOwnership exDB1 [⟨9, 7⟩] ⟨some ⟨1, "user"⟩, some 9, none⟩ ⟨1, "user"⟩ 9
      rfl rfl).2 (by decide) (by decide) (by decide)).2 ⟨9, 7⟩ (by decide)).1 (by decide)
  · exact (((c9_requireOwnership exDB1 [⟨9, 1⟩] ⟨some ⟨1, "user"⟩, some 9, none⟩ ⟨1, "user"⟩ 9
      rfl rfl).2 (by decide) (by decide) (by decide)).2 ⟨9, 1⟩ (by decide)).2 (by decide)
  · exact (c9_requireOwnership exDB1 [] ⟨some ⟨3, "admin"⟩, some 9, none⟩ ⟨3, "admin"⟩ 9
      rfl rfl).1 (Or.inl rfl)

/-! ### C10: the self-check bypass on the user-permissions endpoints -/

/-- C10: the gate guarding `GET /user-permissions/:user_id` and
`POST /check-permission` passes unconditionally when the requested
user id equals the authenticated principal's own id, and otherwise
passes exactly when the principal holds the `user.read` permission. -/
theorem c10_self_bypass (db : DB) (req : Request) (u : User) (target : Nat)
    (hu : req.user = some u) :
    (u.id = target → selfOrUserReadGate db req target = Decision.next) ∧
    (u.id ≠ target →
      (selfOrUserReadGate db req target = Decision.next ↔
        hasPermission db u.id "user.read" = true)) := by
  constructor
  · intro he
    simp [selfOrUserReadGate, hu, he]
  · intro hne
    have hb : (u.id == target) = false := by simp [hne]
    simp only [selfOrUserReadGate, hu, hb, Bool.false_eq_true, if_false,
      requirePermission]
    by_cases hp : hasPermission db u.id "user.read" = true
    · simp [hp]
    · simp only [Bool.not_eq_true] at hp
      simp [hp]

/-- C10 (witness): in `exDB1` user 1 (who lacks `user.read`) passes the
gate for target 1 but is denied for target 2, while a store granting
`user.read` lets a foreign query pass. -/
theorem c10_self_bypass_witness :
    (selfOrUserReadGate exDB1 ⟨some ⟨1, "user"⟩, none, none⟩ 1 = Decision.next) ∧
    (selfOrUserReadGate exDB1 ⟨some ⟨1, "user"⟩, none, none⟩ 2 ≠ Decision.next) := by
  constructor
  · exact (c10_self_bypass exDB1 ⟨some ⟨1, "user"⟩, none, none⟩ ⟨1, "user"⟩ 1 rfl).1 rfl
  · intro hn
    have h := ((c10_self_bypass exDB1 ⟨some ⟨1, "user"⟩, none, none⟩ ⟨1, "user"⟩ 2
      rfl).2 (by decide)).mp hn
    rw [show hasPermission exDB1 1 "user.read" = false by decide] at h
    cases h

/-! ### C8: the allowOwner fallback of requirePermission -/

/-- C8 (counterexample): the claim that the ownership fallback compares
the STORED resource's owner to the principal fails on the code: user 5
of `exDB8` lacks `route.update`, the stored resource 9 is owned by user
7, yet the gate passes because the request BODY claims
`created_by = 5`; the spec-side gate denies. -/
theorem c8_counterexample :
    hasPermission exDB8 5 "route.update" = false ∧
    requirePermission exDB8 exReq8 "route.update" ⟨true⟩ = Decision.next ∧
    requirePermissionSpec exDB8 [⟨9, 7⟩] exReq8 "route.update" ⟨true⟩ =
      Decision.permissionDenied "route.update" := by
  exact ⟨by decide, by decide, by decide⟩

/-- C8 (amended): with `options.allowOwner` set, when the authenticated
principal lacks the required permission and an `:id` route parameter is
present, the gate passes if and only if the request BODY's owner field
strictly equals the principal's id — the stored resource is never
loaded; otherwise it denies with AuthorizationError carrying the
required permission name. -/
theorem c8_amended (db : DB) (req : Request) (u : User) (perm : String)
    (hu : req.user = some u) (hp : hasPermission db u.id perm = false)
    (hparam : req.paramsId.isSome = true) :
    (requirePermission db req perm ⟨true⟩ = Decision.next ↔
      req.bodyOwner = some u.id) ∧
    (req.bodyOwner ≠ some u.id →
      requirePermission db req perm ⟨true⟩ = Decision.permissionDenied perm) := by
  simp only [requirePermission, hu, hp, Bool.false_eq_true, if_false, hparam,
    Bool.true_and, Bool.and_true]
  by_cases hb : req.bodyOwner = some u.id
  · simp [hb]
  · have hbeq : (req.bodyOwner == some u.id) = false := by
      simp [hb]
    simp [hbeq, hb]

/-- C8 (amended, witness): user 5 of `exDB8` passes with a body claiming
ownership and is denied with a body claiming another owner. -/
theorem c8_amended_witness :
    (requirePermission exDB8 exReq8 "route.update" ⟨true⟩ = Decision.next) ∧
    (requirePermission exDB8 ⟨some ⟨5, "user"⟩, some 9, some 4⟩ "route.update" ⟨true⟩ =
      Decision.permissionDenied "route.update") := by
  constructor
  · exact (c8_amended exDB8 exReq8 ⟨5, "user"⟩ "route.update" rfl (by decide)
      (by decide)).1.mpr rfl
  · exact (c8_amended exDB8 ⟨some ⟨5, "user"⟩, some 9, some 4⟩ ⟨5, "user"⟩ "route.update"
      rfl (by decide) (by decide)).2 (by decide)

/-! ### C5: deleteRole -/

/-- C5: `deleteRole` on an existing role: a system role is always
refused with InvalidOperationError (the operation returns no new store,
so nothing is deleted, and no caller identity enters the decision); a
non-system role with at least one active assignment is refused with
ConflictError reporting the count; a non-system role with zero active
assignments is destroyed. -/
theorem c5_deleteRole (db : DB) (rid : Nat) (role : Role)
    (hfind : db.roles.find? (fun r => r.id == rid) = some role) :
    (role.is_system = true → deleteRole db rid = RoleOpResult.invalidOp) ∧
    (role.is_system = false → 0 < activeAssignmentCount db rid →
      deleteRole db rid = RoleOpResult.inUse (activeAssignmentCount db rid)) ∧
    (role.is_system = false → activeAssignmentCount db rid = 0 →
      deleteRole db rid =
        RoleOpResult.ok { db with roles := db.roles.eraseP (fun r => r.id == rid) }) := by
  refine ⟨?_, ?_, ?_⟩
  · intro h1
    simp [deleteRole, hfind, h1]
  · intro h1 h2
    simp [deleteRole, hfind, h1, h2]
  · intro h1 h2
    simp [deleteRole, hfind, h1, h2]

/-- C5 (witness): in `exDB5`, deleting system role 1 is refused,
deleting role 2 (one active assignment) reports the count 1, and
deleting the unassigned role 3 succeeds. -/
theorem c5_deleteRole_witness :
    (deleteRole exDB5 1 = RoleOpResult.invalidOp) ∧
    (deleteRole exDB5 2 = RoleOpResult.inUse 1) ∧
    (deleteRole exDB5 3 =
      RoleOpResult.ok { exDB5 with roles := exDB5.roles.eraseP (fun r => r.id == 3) }) := by
  refine ⟨?_, ?_, ?_⟩
  · exact (c5_deleteRole exDB5 1 ⟨1, "admin", "Administrator", "", true, true⟩
      (by decide)).1 rfl
  · exact (c5_deleteRole exDB5 2 ⟨2, "editors", "Editors", "", true, false⟩
      (by decide)).2.1 rfl (by decide)
  · exact (c5_deleteRole exDB5 3 ⟨3, "temp", "Temporary", "", true, false⟩
      (by decide)).2.2 rfl (by decide)

/-! ### C6: updateRole fully replaces the grant set -/

theorem grant_mem_setPermissions (db : DB) (rid : Nat) (permIds : List Nat) (pid : Nat) :
    (∃ rp ∈ (setPermissions db rid permIds).rolePermissions,
      rp.role_id = rid ∧ rp.permission_id = pid) ↔ pid ∈ permIds := by
  simp only [setPermissions, List.mem_append, List.mem_filter, List.mem_map]
  constructor
  · rintro ⟨rp, hrp | ⟨pid2, hpid2, heq⟩, hrole, hpid⟩
    · obtain ⟨hmem, hcond⟩ := hrp
      rw [hrole] at hcond
      simp only [beq_self_eq_true, Bool.not_true, Bool.false_or] at hcond
      rw [hpid] at hcond
      simpa using hcond
    · rw [← heq] at hpid
      simp only at hpid
      rw [← hpid]
      exact hpid2.1
  · intro hpid
    by_cases hpres :
        (db.rolePermissions.any (fun rp => rp.role_id == rid && rp.permission_id == pid)) = true
    · obtain ⟨rp, hmem, hcond⟩ := List.any_eq_true.mp hpres
      rw [Bool.and_eq_true, beq_iff_eq, beq_iff_eq] at hcond
      refine ⟨rp, Or.inl ⟨hmem, ?_⟩, hcond.1, hcond.2⟩
      rw [hcond.2]
      simp [hpid]
    · refine ⟨⟨rid, pid, none⟩, Or.inr ⟨pid, ⟨hpid, ?_⟩, rfl⟩, rfl, rfl⟩
      simp only [Bool.not_eq_true] at hpres
      simp [hpres]

theorem grant_mem_stamp (l : List RolePermission) (f : RolePermission → Bool)
    (g rid pid : Nat) :
    (∃ rp ∈ l.map (fun rp =>
        if f rp then { rp with granted_by := some g } else rp),
      rp.role_id = rid ∧ rp.permission_id = pid) ↔
    (∃ rp ∈ l, rp.role_id = rid ∧ rp.permission_id = pid) := by
  simp only [List.mem_map]
  constructor
  · rintro ⟨rp, ⟨rp0, hmem, heq⟩, hrole, hpid⟩
    refine ⟨rp0, hmem, ?_, ?_⟩
    · by_cases hf : f rp0 = true <;> simp only [hf, if_true, Bool.false_eq_true,
        if_false] at heq <;> rw [← heq] at hrole <;> simpa using hrole
    · by_cases hf : f rp0 = true <;> simp only [hf, if_true, Bool.false_eq_true,
        if_false] at heq <;> rw [← heq] at hpid <;> simpa using hpid
  · rintro ⟨rp, hmem, hrole, hpid⟩
    refine ⟨if f rp then { rp with granted_by := some g } else rp, ⟨rp, hmem, rfl⟩, ?_, ?_⟩
    · by_cases hf : f rp = true <;> simp [hf, hrole]
    · by_cases hf : f rp = true <;> simp [hf, hpid]

/-- `updateRole` on an existing non-system role with a supplied
permission list returns exactly the `updateRoleAfter` store. -/
theorem updateRole_ok (db : DB) (rid : Nat) (role : Role) (pids : List Nat)
    (n2 d2 ds2 : Option String) (caller : Nat)
    (hfind : db.roles.find? (fun r => r.id == rid) = some role)
    (h1 : role.is_system = false) :
    updateRole db rid n2 d2 ds2 (some pids) caller =
      RoleOpResult.ok (updateRoleAfter db rid n2 d2 ds2 pids caller) := by
  simp only [updateRole, hfind, h1, Bool.false_eq_true, if_false, updateRoleAfter]

/-- C6: `updateRole` on an existing role: refused outright with
InvalidOperationError when the role is a system role; otherwise, when a
permission-id list referencing existing active permissions is supplied,
the grant set of the role afterwards is EXACTLY that list (full
replacement, not a merge), the permission and assignment tables are
untouched, and every permission name dropped from the list is no longer
held — via that role — by any principal whose active assignments all
point at that role. -/
theorem c6_updateRole (db : DB) (rid : Nat) (role : Role) (pids : List Nat)
    (n2 d2 ds2 : Option String) (caller : Nat)
    (hfind : db.roles.find? (fun r => r.id == rid) = some role) :
    (role.is_system = true →
      updateRole db rid n2 d2 ds2 (some pids) caller = RoleOpResult.invalidOp) ∧
    (role.is_system = false →
     (∀ pid ∈ pids, ∃ p ∈ db.permissions, p.id = pid ∧ p.is_active = true) →
      updateRole db rid n2 d2 ds2 (some pids) caller =
        RoleOpResult.ok (updateRoleAfter db rid n2 d2 ds2 pids caller) ∧
      (updateRoleAfter db rid n2 d2 ds2 pids caller).permissions = db.permissions ∧
      (updateRoleAfter db rid n2 d2 ds2 pids caller).userRoles = db.userRoles ∧
      (∀ pid, (∃ rp ∈ (updateRoleAfter db rid n2 d2 ds2 pids caller).rolePermissions,
        rp.role_id = rid ∧ rp.permission_id = pid) ↔ pid ∈ pids) ∧
      (∀ uid x,
        (∀ ur ∈ (updateRoleAfter db rid n2 d2 ds2 pids caller).userRoles,
          ur.user_id = uid → ur.is_active = true → ur.role_id = rid) →
        (¬ ∃ p ∈ db.permissions, p.id ∈ pids ∧ p.name = x) →
        hasPermission (updateRoleAfter db rid n2 d2 ds2 pids caller) uid x = false)) := by
  constructor
  · intro h1
    simp [updateRole, hfind, h1]
  · intro h1 hactive
    have hgrantiff : ∀ pid,
        (∃ rp ∈ (updateRoleAfter db rid n2 d2 ds2 pids caller).rolePermissions,
          rp.role_id = rid ∧ rp.permission_id = pid) ↔ pid ∈ pids := by
      intro pid
      have hstamp := grant_mem_stamp
        ((setPermissions
          { db with roles := db.roles.map (fun r =>
              if r.id == rid then
                { r with name := n2.getD r.name,
                         display_name := d2.getD r.display_name,
                         descr := ds2.getD r.descr }
              else r) } rid
          ((db.permissions.filter (fun p =>
            pids.contains p.id && p.is_active)).map Permission.id)).rolePermissions)
        (fun rp => rp.role_id == rid &&
          ((db.permissions.filter (fun p =>
            pids.contains p.id && p.is_active)).map Permission.id).contains rp.permission_id)
        caller rid pid
      have hset := grant_mem_setPermissions
        { db with roles := db.roles.map (fun r =>
            if r.id == rid then
              { r with name := n2.getD r.name,
                       display_name := d2.getD r.display_name,
                       descr := ds2.getD r.descr }
            else r) } rid
        ((db.permissions.filter (fun p =>
          pids.contains p.id && p.is_active)).map Permission.id) pid
      have hids : pid ∈ ((db.permissions.filter (fun p =>
          pids.contains p.id && p.is_active)).map Permission.id) ↔ pid ∈ pids := by
        constructor
        · intro h
          obtain ⟨p, hp, hid⟩ := List.mem_map.mp h
          obtain ⟨hpm, hcond⟩ := List.mem_filter.mp hp
          rw [Bool.and_eq_true] at hcond
          rw [← hid]
          simpa using hcond.1
        · intro h
          obtain ⟨p, hp, hpid, hact⟩ := hactive pid h
          refine List.mem_map.mpr ⟨p, List.mem_filter.mpr ⟨hp, ?_⟩, hpid⟩
          rw [Bool.and_eq_true, hpid]
          exact ⟨by simpa using h, hact⟩
      exact (hstamp.trans hset).trans hids
    refine ⟨updateRole_ok db rid role pids n2 d2 ds2 caller hfind h1, rfl, rfl,
      hgrantiff, ?_⟩
    intro uid x honly hrem
    cases hval : hasPermission (updateRoleAfter db rid n2 d2 ds2 pids caller) uid x with
    | false => rfl
    | true =>
      exfalso
      obtain ⟨hexu, ur, hur, huid, hact2, r, hr, hrid2, rp, hrp, hrole2, p, hp,
        hpid2, hact3, hname⟩ := (hasPermission_iff _ uid x).mp hval
      have hurrole : ur.role_id = rid := honly ur hur huid hact2
      have hin : rp.permission_id ∈ pids :=
        (hgrantiff rp.permission_id).mp ⟨rp, hrp, by rw [hrole2, hrid2, hurrole], rfl⟩
      exact hrem ⟨p, hp, by rw [hpid2]; exact hin, hname⟩

/-- C6 (witness): replacing the five grants of the custom moderator-like
role of `exDB6` with just `message.read` (id 33) leaves exactly that
grant, and user 1 — who holds only that role — loses `route.read` while
keeping `message.read`. -/
theorem c6_updateRole_witness :
    updateRole exDB6 2 none none none (some [33]) 9 =
      RoleOpResult.ok (updateRoleAfter exDB6 2 none none none [33] 9) ∧
    (updateRoleAfter exDB6 2 none none none [33] 9).rolePermissions =
      [⟨2, 33, some 9⟩] ∧
    hasPermission (updateRoleAfter exDB6 2 none none none [33] 9) 1 "route.read" = false ∧
    hasPermission (updateRoleAfter exDB6 2 none none none [33] 9) 1 "message.read" = true := by
  obtain ⟨hok, hperm, hur, hgrant, hrem⟩ :=
    (c6_updateRole exDB6 2 ⟨2, "moderator", "Content Moderator", "", true, false⟩ [33]
      none none none 9 (by decide)).2 rfl (by decide)
  exact ⟨hok, by decide, hrem 1 "route.read" (by decide) (by decide), by decide⟩

/-! ### C7: bootstrap idempotence -/

theorem setPermissions_roles (d : DB) (rid : Nat) (S : List Nat) :
    (setPermissions d rid S).roles = d.roles := rfl

theorem setPermissions_permissions (d : DB) (rid : Nat) (S : List Nat) :
    (setPermissions d rid S).permissions = d.permissions := rfl

theorem setPermissions_userRoles (d : DB) (rid : Nat) (S : List Nat) :
    (setPermissions d rid S).userRoles = d.userRoles := rfl

theorem setPermissions_users (d : DB) (rid : Nat) (S : List Nat) :
    (setPermissions d rid S).users = d.users := rfl

theorem setPermissions_nextId (d : DB) (rid : Nat) (S : List Nat) :
    (setPermissions d rid S).nextId = d.nextId := rfl

theorem grantSetIs_setPermissions (d : DB) (rid : Nat) (S : List Nat) :
    GrantSetIs (setPermissions d rid S) rid S := by
  constructor
  · intro rp hrp hrole
    rcases List.mem_append.mp hrp with hk | hi
    · obtain ⟨hmem, hcond⟩ := List.mem_filter.mp hk
      rw [hrole] at hcond
      simp only [beq_self_eq_true, Bool.not_true, Bool.false_or] at hcond
      simpa using hcond
    · obtain ⟨pid, hpid, heq⟩ := List.mem_map.mp hi
      rw [← heq]
      exact (List.mem_filter.mp hpid).1
  · intro pid hpid
    by_cases hpres :
        (d.rolePermissions.any (fun rp => rp.role_id == rid && rp.permission_id == pid)) = true
    · obtain ⟨rp, hmem, hcond⟩ := List.any_eq_true.mp hpres
      rw [Bool.and_eq_true, beq_iff_eq, beq_iff_eq] at hcond
      refine ⟨rp, List.mem_append.mpr (Or.inl (List.mem_filter.mpr ⟨hmem, ?_⟩)),
        hcond.1, hcond.2⟩
      rw [hcond.2]
      simp [hpid]
    · refine ⟨⟨rid, pid, none⟩, List.mem_append.mpr (Or.inr ?_), rfl, rfl⟩
      refine List.mem_map.mpr ⟨pid, List.mem_filter.mpr ⟨hpid, ?_⟩, rfl⟩
      simp only [Bool.not_eq_true] at hpres
      simp [hpres]

theorem setPermissions_eq_self (d : DB) (rid : Nat) (S : List Nat)
    (h : GrantSetIs d rid S) : setPermissions d rid S = d := by
  obtain ⟨h1, h2⟩ := h
  have hfil : d.rolePermissions.filter (fun rp =>
      !(rp.role_id == rid) || S.contains rp.permission_id) = d.rolePermissions := by
    apply List.filter_eq_self.mpr
    intro rp hrp
    by_cases hr : rp.role_id = rid
    · have := h1 rp hrp hr
      simp [this]
    · simp [hr]
  have hins : S.filter (fun pid =>
      !(d.rolePermissions.any (fun rp =>
        rp.role_id == rid && rp.permission_id == pid))) = [] := by
    apply List.filter_eq_nil_iff.mpr
    intro pid hpid
    obtain ⟨rp, hmem, hrole, hpidmem⟩ := h2 pid hpid
    simp only [Bool.not_eq_true', Bool.not_eq_false]
    exact List.any_eq_true.mpr ⟨rp, hmem, by simp [hrole, hpidmem]⟩
  show ({ d with rolePermissions := _ } : DB) = d
  rw [hfil, hins, List.map_nil, List.append_nil]

theorem grantSetIs_setPermissions_other (d : DB) (rid1 : Nat) (S1 : List Nat)
    (rid2 : Nat) (S2 : List Nat) (hne : rid1 ≠ rid2)
    (h : GrantSetIs d rid1 S1) : GrantSetIs (setPermissions d rid2 S2) rid1 S1 := by
  obtain ⟨h1, h2⟩ := h
  constructor
  · intro rp hrp hrole
    rcases List.mem_append.mp hrp with hk | hi
    · exact h1 rp (List.mem_filter.mp hk).1 hrole
    · obtain ⟨pid, hpid, heq⟩ := List.mem_map.mp hi
      rw [← heq] at hrole
      simp only at hrole
      exact absurd hrole.symm hne
  · intro pid hpid
    obtain ⟨rp, hmem, hrole, hpidmem⟩ := h2 pid hpid
    refine ⟨rp, List.mem_append.mpr (Or.inl (List.mem_filter.mpr ⟨hmem, ?_⟩)),
      hrole, hpidmem⟩
    have : (rp.role_id == rid2) = false := by
      simp [hrole, hne]
    simp [this]

theorem srp_eq_with (d : DB) (n : String) (ns : List String) :
    setRolePermsByNames d n ns =
      setRolePermsWith (fun ps => (ps.filter (fun p => ns.contains p.name)).map
        Permission.id) d n := by
  unfold setRolePermsByNames setRolePermsWith
  cases d.roles.find? (fun r => r.name == n) <;> rfl

theorem ssa_eq_with (d : DB) :
    setSuperAdminPerms d =
      setRolePermsWith (fun ps => (ps.filter Permission.is_active).map Permission.id)
        d "super_admin" := by
  unfold setSuperAdminPerms setRolePermsWith
  cases d.roles.find? (fun r => r.name == "super_admin") <;> rfl

theorem adp_eq_foldOps (d : DB) :
    assignDefaultRolePerms d = foldOps defaultOps d := by
  unfold assignDefaultRolePerms foldOps defaultOps
  simp only [List.foldl_cons, List.foldl_nil]
  rw [ssa_eq_with, srp_eq_with, srp_eq_with, srp_eq_with, srp_eq_with, srp_eq_with]

theorem with_roles (f : List Permission → List Nat) (d : DB) (n : String) :
    (setRolePermsWith f d n).roles = d.roles := by
  unfold setRolePermsWith
  cases d.roles.find? (fun r => r.name == n) <;> rfl

theorem with_permissions (f : List Permission → List Nat) (d : DB) (n : String) :
    (setRolePermsWith f d n).permissions = d.permissions := by
  unfold setRolePermsWith
  cases d.roles.find? (fun r => r.name == n) <;> rfl

theorem with_userRoles (f : List Permission → List Nat) (d : DB) (n : String) :
    (setRolePermsWith f d n).userRoles = d.userRoles := by
  unfold setRolePermsWith
  cases d.roles.find? (fun r => r.name == n) <;> rfl

theorem with_users (f : List Permission → List Nat) (d : DB) (n : String) :
    (setRolePermsWith f d n).users = d.users := by
  unfold setRolePermsWith
  cases d.roles.find? (fun r => r.name == n) <;> rfl

theorem with_nextId (f : List Permission → List Nat) (d : DB) (n : String) :
    (setRolePermsWith f d n).nextId = d.nextId := by
  unfold setRolePermsWith
  cases d.roles.find? (fun r => r.name == n) <;> rfl

theorem with_grantSet (f : List Permission → List Nat) (d : DB) (n : String) (r : Role)
    (hf : d.roles.find? (fun r2 => r2.name == n) = some r) :
    GrantSetIs (setRolePermsWith f d n) r.id (f d.permissions) := by
  unfold setRolePermsWith
  rw [hf]
  exact grantSetIs_setPermissions d r.id (f d.permissions)

theorem with_grantSet_other (f : List Permission → List Nat) (d : DB) (n : String)
    (rid : Nat) (S : List Nat)
    (hne : ∀ r, d.roles.find? (fun r2 => r2.name == n) = some r → r.id ≠ rid)
    (h : GrantSetIs d rid S) : GrantSetIs (setRolePermsWith f d n) rid S := by
  unfold setRolePermsWith
  cases hf : d.roles.find? (fun r2 => r2.name == n) with
  | none => exact h
  | some r =>
    exact grantSetIs_setPermissions_other d rid S r.id (f d.permissions)
      (fun he => (hne r hf) he.symm) h

theorem with_eq_self (f : List Permission → List Nat) (d : DB) (n : String)
    (h : ∀ r, d.roles.find? (fun r2 => r2.name == n) = some r →
      GrantSetIs d r.id (f d.permissions)) :
    setRolePermsWith f d n = d := by
  unfold setRolePermsWith
  cases hf : d.roles.find? (fun r2 => r2.name == n) with
  | none => rfl
  | some r => exact setPermissions_eq_self d r.id (f d.permissions) (h r hf)

theorem foldOps_cons (op : (List Permission → List Nat) × String)
    (t : List ((List Permission → List Nat) × String)) (d : DB) :
    foldOps (op :: t) d = foldOps t (setRolePermsWith op.1 d op.2) := rfl

theorem foldOps_roles (ops : List ((List Permission → List Nat) × String)) (d : DB) :
    (foldOps ops d).roles = d.roles := by
  induction ops generalizing d with
  | nil => rfl
  | cons op t ih =>
    rw [foldOps_cons, ih, with_roles]

theorem foldOps_permissions (ops : List ((List Permission → List Nat) × String)) (d : DB) :
    (foldOps ops d).permissions = d.permissions := by
  induction ops generalizing d with
  | nil => rfl
  | cons op t ih =>
    rw [foldOps_cons, ih, with_permissions]

theorem foldOps_userRoles (ops : List ((List Permission → List Nat) × String)) (d : DB) :
    (foldOps ops d).userRoles = d.userRoles := by
  induction ops generalizing d with
  | nil => rfl
  | cons op t ih =>
    rw [foldOps_cons, ih, with_userRoles]

theorem foldOps_users (ops : List ((List Permission → List Nat) × String)) (d : DB) :
    (foldOps ops d).users = d.users := by
  induction ops generalizing d with
  | nil => rfl
  | cons op t ih =>
    rw [foldOps_cons, ih, with_users]

theorem foldOps_nextId (ops : List ((List Permission → List Nat) × String)) (d : DB) :
    (foldOps ops d).nextId = d.nextId := by
  induction ops generalizing d with
  | nil => rfl
  | cons op t ih =>
    rw [foldOps_cons, ih, with_nextId]

theorem foldOps_grantSet_other (ops : List ((List Permission → List Nat) × String))
    (d : DB) (rid : Nat) (S : List Nat) (h : GrantSetIs d rid S)
    (hne : ∀ op ∈ ops, ∀ r, d.roles.find? (fun r2 => r2.name == op.2) = some r →
      r.id ≠ rid) :
    GrantSetIs (foldOps ops d) rid S := by
  induction ops generalizing d with
  | nil => exact h
  | cons op0 t ih =>
    rw [foldOps_cons]
    apply ih
    · exact with_grantSet_other op0.1 d op0.2 rid S
        (fun r hf => hne op0 (List.mem_cons_self _ _) r hf) h
    · intro op2 hop2 r hf
      rw [with_roles] at hf
      exact hne op2 (List.mem_cons_of_mem op0 hop2) r hf

theorem foldOps_establishes (ops : List ((List Permission → List Nat) × String))
    (d : DB) (hIds : (d.roles.map Role.id).Nodup)
    (hnames : (ops.map Prod.snd).Nodup) :
    ∀ op ∈ ops, ∀ r, d.roles.find? (fun r2 => r2.name == op.2) = some r →
      GrantSetIs (foldOps ops d) r.id (op.1 d.permissions) := by
  induction ops generalizing d with
  | nil =>
    intro op hop
    cases hop
  | cons op0 t ih =>
    intro op hop r hf
    rw [foldOps_cons]
    rcases List.mem_cons.mp hop with he | ht
    · subst he
      apply foldOps_grantSet_other
      · exact with_grantSet op.1 d op.2 r hf
      · intro op2 hop2 r2 hf2
        rw [with_roles] at hf2
        have hr2name : r2.name = op2.2 := by
          have := List.find?_some hf2
          simpa using this
        have hrname : r.name = op.2 := by
          have := List.find?_some hf
          simpa using this
        have hnn : op2.2 ≠ op.2 := by
          rw [List.map_cons, List.nodup_cons] at hnames
          intro hcontra
          exact hnames.1 (hcontra ▸ List.mem_map_of_mem Prod.snd hop2)
        intro hid
        have hr2mem : r2 ∈ d.roles := List.mem_of_find?_eq_some hf2
        have hrmem : r ∈ d.roles := List.mem_of_find?_eq_some hf
        have heq2 : r2 = r := List.inj_on_of_nodup_map hIds hr2mem hrmem hid
        exact hnn (by rw [← hr2name, heq2, hrname])
    · have hf2 : (setRolePermsWith op0.1 d op0.2).roles.find?
          (fun r2 => r2.name == op.2) = some r := by
        rw [with_roles]
        exact hf
      have hIds2 : ((setRolePermsWith op0.1 d op0.2).roles.map Role.id).Nodup := by
        rw [with_roles]
        exact hIds
      have hnames2 : (t.map Prod.snd).Nodup := by
        rw [List.map_cons, List.nodup_cons] at hnames
        exact hnames.2
      have := ih (setRolePermsWith op0.1 d op0.2) hIds2 hnames2 op ht r hf2
      rw [with_permissions] at this
      exact this

theorem foldOps_eq_self (ops : List ((List Permission → List Nat) × String)) (d : DB)
    (h : ∀ op ∈ ops, ∀ r, d.roles.find? (fun r2 => r2.name == op.2) = some r →
      GrantSetIs d r.id (op.1 d.permissions)) :
    foldOps ops d = d := by
  induction ops with
  | nil => rfl
  | cons op0 t ih =>
    rw [foldOps_cons,
      with_eq_self op0.1 d op0.2 (fun r hf => h op0 (List.mem_cons_self _ _) r hf)]
    exact ih (fun op hop r hf => h op (List.mem_cons_of_mem _ hop) r hf)

theorem foldOps_idem (ops : List ((List Permission → List Nat) × String)) (d : DB)
    (hIds : (d.roles.map Role.id).Nodup)
    (hnames : (ops.map Prod.snd).Nodup) :
    foldOps ops (foldOps ops d) = foldOps ops d := by
  apply foldOps_eq_self
  intro op hop r hf
  rw [foldOps_roles] at hf
  have := foldOps_establishes ops d hIds hnames op hop r hf
  rw [foldOps_permissions]
  exact this

theorem foldOps_foreign_grants (ops : List ((List Permission → List Nat) × String))
    (d : DB) (rp : RolePermission) (hmem : rp ∈ d.rolePermissions)
    (hforeign : ∀ op ∈ ops, ∀ r, d.roles.find? (fun r2 => r2.name == op.2) = some r →
      r.id ≠ rp.role_id) :
    rp ∈ (foldOps ops d).rolePermissions := by
  induction ops generalizing d with
  | nil => exact hmem
  | cons op0 t ih =>
    rw [foldOps_cons]
    apply ih
    · show rp ∈ (setRolePermsWith op0.1 d op0.2).rolePermissions
      unfold setRolePermsWith
      cases hf : d.roles.find? (fun r2 => r2.name == op0.2) with
      | none => exact hmem
      | some r =>
        show rp ∈ (setPermissions d r.id _).rolePermissions
        refine List.mem_append.mpr (Or.inl (List.mem_filter.mpr ⟨hmem, ?_⟩))
        have hne2 : ¬ rp.role_id = r.id := by
          intro he
          exact hforeign op0 (List.mem_cons_self _ _) r hf he.symm
        simp [hne2]
    · intro op2 hop2 r hf
      rw [with_roles] at hf
      exact hforeign op2 (List.mem_cons_of_mem op0 hop2) r hf

theorem focr_fields (d : DB) (rd : RoleSeed) :
    (findOrCreateRole d rd).users = d.users ∧
    (findOrCreateRole d rd).permissions = d.permissions ∧
    (findOrCreateRole d rd).userRoles = d.userRoles ∧
    (findOrCreateRole d rd).rolePermissions = d.rolePermissions := by
  unfold findOrCreateRole
  split <;> exact ⟨rfl, rfl, rfl, rfl⟩

theorem focr_roles_append (d : DB) (rd : RoleSeed) :
    ∃ L, (findOrCreateRole d rd).roles = d.roles ++ L ∧
      ∀ r ∈ L, d.nextId ≤ r.id := by
  unfold findOrCreateRole
  split
  · exact ⟨[], (List.append_nil _).symm, by intro r hr; cases hr⟩
  · refine ⟨[(⟨d.nextId, rd.name, rd.display_name, rd.descr, true, rd.is_system⟩ : Role)],
      rfl, ?_⟩
    intro r hr
    rcases List.mem_singleton.mp hr with h
    rw [h]

theorem focr_nextId_mono (d : DB) (rd : RoleSeed) :
    d.nextId ≤ (findOrCreateRole d rd).nextId := by
  unfold findOrCreateRole
  split
  · exact Nat.le_refl _
  · exact Nat.le_succ _

theorem focr_wf (d : DB) (rd : RoleSeed)
    (hIds : (d.roles.map Role.id).Nodup)
    (hB : ∀ r ∈ d.roles, r.id < d.nextId) :
    ((findOrCreateRole d rd).roles.map Role.id).Nodup ∧
    (∀ r ∈ (findOrCreateRole d rd).roles, r.id < (findOrCreateRole d rd).nextId) := by
  unfold findOrCreateRole
  split
  · exact ⟨hIds, hB⟩
  · constructor
    · rw [List.map_append, List.nodup_append]
      refine ⟨hIds, by simp, ?_⟩
      intro a ha hb
      obtain ⟨r, hr, hrid⟩ := List.mem_map.mp ha
      simp only [List.map_cons, List.map_nil, List.mem_singleton] at hb
      rw [hb] at hrid
      exact absurd hrid (Nat.ne_of_lt (hB r hr))
    · intro r hr
      rcases List.mem_append.mp hr with h1 | h1
      · exact Nat.lt_succ_of_lt (hB r h1)
      · rcases List.mem_singleton.mp h1 with h
        rw [h]
        exact Nat.lt_succ_self _

theorem foldr_fields (seeds : List RoleSeed) (d : DB) :
    (seeds.foldl findOrCreateRole d).users = d.users ∧
    (seeds.foldl findOrCreateRole d).permissions = d.permissions ∧
    (seeds.foldl findOrCreateRole d).userRoles = d.userRoles ∧
    (seeds.foldl findOrCreateRole d).rolePermissions = d.rolePermissions := by
  induction seeds generalizing d with
  | nil => exact ⟨rfl, rfl, rfl, rfl⟩
  | cons rd t ih =>
    rw [List.foldl_cons]
    obtain ⟨h1, h2, h3, h4⟩ := ih (findOrCreateRole d rd)
    obtain ⟨g1, g2, g3, g4⟩ := focr_fields d rd
    exact ⟨h1.trans g1, h2.trans g2, h3.trans g3, h4.trans g4⟩

theorem foldr_nextId_mono (seeds : List RoleSeed) (d : DB) :
    d.nextId ≤ (seeds.foldl findOrCreateRole d).nextId := by
  induction seeds generalizing d with
  | nil => exact Nat.le_refl _
  | cons rd t ih =>
    rw [List.foldl_cons]
    exact Nat.le_trans (focr_nextId_mono d rd) (ih (findOrCreateRole d rd))

theorem foldr_roles_append (seeds : List RoleSeed) (d : DB) :
    ∃ L, (seeds.foldl findOrCreateRole d).roles = d.roles ++ L ∧
      ∀ r ∈ L, d.nextId ≤ r.id := by
  induction seeds generalizing d with
  | nil => exact ⟨[], (List.append_nil _).symm, by intro r hr; cases hr⟩
  | cons rd t ih =>
    rw [List.foldl_cons]
    obtain ⟨L1, hL1, hb1⟩ := focr_roles_append d rd
    obtain ⟨L2, hL2, hb2⟩ := ih (findOrCreateRole d rd)
    refine ⟨L1 ++ L2, by rw [hL2, hL1, List.append_assoc], ?_⟩
    intro r hr
    rcases List.mem_append.mp hr with h1 | h1
    · exact hb1 r h1
    · exact Nat.le_trans (focr_nextId_mono d rd) (hb2 r h1)

theorem foldr_wf (seeds : List RoleSeed) (d : DB)
    (hIds : (d.roles.map Role.id).Nodup)
    (hB : ∀ r ∈ d.roles, r.id < d.nextId) :
    ((seeds.foldl findOrCreateRole d).roles.map Role.id).Nodup ∧
    (∀ r ∈ (seeds.foldl findOrCreateRole d).roles,
      r.id < (seeds.foldl findOrCreateRole d).nextId) := by
  induction seeds generalizing d with
  | nil => exact ⟨hIds, hB⟩
  | cons rd t ih =>
    rw [List.foldl_cons]
    obtain ⟨h1, h2⟩ := focr_wf d rd hIds hB
    exact ih (findOrCreateRole d rd) h1 h2

theorem focr_mem_mono (d : DB) (rd : RoleSeed) (r : Role) (h : r ∈ d.roles) :
    r ∈ (findOrCreateRole d rd).roles := by
  obtain ⟨L, hL, _⟩ := focr_roles_append d rd
  rw [hL]
  exact List.mem_append.mpr (Or.inl h)

theorem foldr_mem_mono (seeds : List RoleSeed) (d : DB) (r : Role) (h : r ∈ d.roles) :
    r ∈ (seeds.foldl findOrCreateRole d).roles := by
  obtain ⟨L, hL, _⟩ := foldr_roles_append seeds d
  rw [hL]
  exact List.mem_append.mpr (Or.inl h)

theorem focr_has_name (d : DB) (rd : RoleSeed) :
    ∃ r ∈ (findOrCreateRole d rd).roles, r.name = rd.name := by
  unfold findOrCreateRole
  split
  · rename_i hc
    obtain ⟨r, hr, hname⟩ := List.any_eq_true.mp hc
    exact ⟨r, hr, by simpa using hname⟩
  · exact ⟨_, List.mem_append.mpr (Or.inr (List.mem_singleton.mpr rfl)), rfl⟩

theorem foldr_has_names (seeds : List RoleSeed) (d : DB) :
    ∀ rd ∈ seeds, ∃ r ∈ (seeds.foldl findOrCreateRole d).roles, r.name = rd.name := by
  induction seeds generalizing d with
  | nil =>
    intro rd h
    cases h
  | cons rd0 t ih =>
    intro rd hrd
    rw [List.foldl_cons]
    rcases List.mem_cons.mp hrd with he | ht
    · subst he
      obtain ⟨r, hr, hname⟩ := focr_has_name d rd
      exact ⟨r, foldr_mem_mono t _ r hr, hname⟩
    · exact ih (findOrCreateRole d rd0) rd ht

theorem foldr_eq_self (seeds : List RoleSeed) (d : DB)
    (h : ∀ rd ∈ seeds, ∃ r ∈ d.roles, r.name = rd.name) :
    seeds.foldl findOrCreateRole d = d := by
  induction seeds with
  | nil => rfl
  | cons rd0 t ih =>
    rw [List.foldl_cons]
    have hfc : findOrCreateRole d rd0 = d := by
      unfold findOrCreateRole
      rw [if_pos]
      obtain ⟨r, hr, hname⟩ := h rd0 (List.mem_cons_self _ _)
      exact List.any_eq_true.mpr ⟨r, hr, by simp [hname]⟩
    rw [hfc]
    exact ih (fun rd hrd => h rd (List.mem_cons_of_mem _ hrd))

theorem focp_fields (d : DB) (pd : PermSeed) :
    (findOrCreatePermission d pd).users = d.users ∧
    (findOrCreatePermission d pd).roles = d.roles ∧
    (findOrCreatePermission d pd).userRoles = d.userRoles ∧
    (findOrCreatePermission d pd).rolePermissions = d.rolePermissions := by
  unfold findOrCreatePermission
  split <;> exact ⟨rfl, rfl, rfl, rfl⟩

theorem focp_nextId_mono (d : DB) (pd : PermSeed) :
    d.nextId ≤ (findOrCreatePermission d pd).nextId := by
  unfold findOrCreatePermission
  split
  · exact Nat.le_refl _
  · exact Nat.le_succ _

theorem foldp_fields (seeds : List PermSeed) (d : DB) :
    (seeds.foldl findOrCreatePermission d).users = d.users ∧
    (seeds.foldl findOrCreatePermission d).roles = d.roles ∧
    (seeds.foldl findOrCreatePermission d).userRoles = d.userRoles ∧
    (seeds.foldl findOrCreatePermission d).rolePermissions = d.rolePermissions := by
  induction seeds generalizing d with
  | nil => exact ⟨rfl, rfl, rfl, rfl⟩
  | cons pd t ih =>
    rw [List.foldl_cons]
    obtain ⟨h1, h2, h3, h4⟩ := ih (findOrCreatePermission d pd)
    obtain ⟨g1, g2, g3, g4⟩ := focp_fields d pd
    exact ⟨h1.trans g1, h2.trans g2, h3.trans g3, h4.trans g4⟩

theorem foldp_nextId_mono (seeds : List PermSeed) (d : DB) :
    d.nextId ≤ (seeds.foldl findOrCreatePermission d).nextId := by
  induction seeds generalizing d with
  | nil => exact Nat.le_refl _
  | cons pd t ih =>
    rw [List.foldl_cons]
    exact Nat.le_trans (focp_nextId_mono d pd) (ih (findOrCreatePermission d pd))

theorem focp_perm_mem_mono (d : DB) (pd : PermSeed) (p : Permission)
    (h : p ∈ d.permissions) : p ∈ (findOrCreatePermission d pd).permissions := by
  unfold findOrCreatePermission
  split
  · exact h
  · exact List.mem_append.mpr (Or.inl h)

theorem foldp_perm_mem_mono (seeds : List PermSeed) (d : DB) (p : Permission)
    (h : p ∈ d.permissions) : p ∈ (seeds.foldl findOrCreatePermission d).permissions := by
  induction seeds generalizing d with
  | nil => exact h
  | cons pd t ih =>
    rw [List.foldl_cons]
    exact ih (findOrCreatePermission d pd) (focp_perm_mem_mono d pd p h)

theorem focp_has_name (d : DB) (pd : PermSeed) :
    ∃ p ∈ (findOrCreatePermission d pd).permissions, p.name = pd.name := by
  unfold findOrCreatePermission
  split
  · rename_i hc
    obtain ⟨p, hp, hname⟩ := List.any_eq_true.mp hc
    exact ⟨p, hp, by simpa using hname⟩
  · exact ⟨_, List.mem_append.mpr (Or.inr (List.mem_singleton.mpr rfl)), rfl⟩

theorem foldp_has_names (seeds : List PermSeed) (d : DB) :
    ∀ pd ∈ seeds, ∃ p ∈ (seeds.foldl findOrCreatePermission d).permissions,
      p.name = pd.name := by
  induction seeds generalizing d with
  | nil =>
    intro pd h
    cases h
  | cons pd0 t ih =>
    intro pd hpd
    rw [List.foldl_cons]
    rcases List.mem_cons.mp hpd with he | ht
    · subst he
      obtain ⟨p, hp, hname⟩ := focp_has_name d pd
      exact ⟨p, foldp_perm_mem_mono t _ p hp, hname⟩
    · exact ih (findOrCreatePermission d pd0) pd ht

theorem foldp_eq_self (seeds : List PermSeed) (d : DB)
    (h : ∀ pd ∈ seeds, ∃ p ∈ d.permissions, p.name = pd.name) :
    seeds.foldl findOrCreatePermission d = d := by
  induction seeds with
  | nil => rfl
  | cons pd0 t ih =>
    rw [List.foldl_cons]
    have hfc : findOrCreatePermission d pd0 = d := by
      unfold findOrCreatePermission
      rw [if_pos]
      obtain ⟨p, hp, hname⟩ := h pd0 (List.mem_cons_self _ _)
      exact List.any_eq_true.mpr ⟨p, hp, by simp [hname]⟩
    rw [hfc]
    exact ih (fun pd hpd => h pd (List.mem_cons_of_mem _ hpd))

/-- C7: `initializeRBAC` is idempotent and non-destructive: running it a
second time reproduces exactly the same store (same roles, permissions
and grant rows — no duplicates); a run never touches the assignments
table; a run only appends to the roles table (so any custom role created
between two runs survives the second unchanged); and a grant row of a
role that is not one of the six built-in role names survives a run.
Hypotheses: role ids are unique and below the fresh-id counter, as the
schema's primary keys guarantee. -/
theorem c7_initRBAC_idempotent (db : DB)
    (hIds : (db.roles.map Role.id).Nodup)
    (hB : ∀ r ∈ db.roles, r.id < db.nextId) :
    initRBAC (initRBAC db) = initRBAC db ∧
    (initRBAC db).userRoles = db.userRoles ∧
    (∃ created, (initRBAC db).roles = db.roles ++ created) ∧
    (∀ rp ∈ db.rolePermissions, rp.role_id < db.nextId →
      (∀ r ∈ db.roles, r.id = rp.role_id → ¬ r.name ∈ defaultRoleNames) →
      rp ∈ (initRBAC db).rolePermissions) := by
  have hd0roles : (initDefaultPermissions (initDefaultRoles db)).roles =
      (initDefaultRoles db).roles :=
    (foldp_fields defaultPermissions (initDefaultRoles db)).2.1
  have hroles1 : (initRBAC db).roles = (initDefaultRoles db).roles := by
    unfold initRBAC
    rw [adp_eq_foldOps, foldOps_roles, hd0roles]
  have hperms1 : (initRBAC db).permissions =
      (initDefaultPermissions (initDefaultRoles db)).permissions := by
    unfold initRBAC
    rw [adp_eq_foldOps, foldOps_permissions]
  refine ⟨?_, ?_, ?_, ?_⟩
  · obtain ⟨hIds1, hB1⟩ := foldr_wf defaultRoles db hIds hB
    have hIds0 : ((initDefaultPermissions (initDefaultRoles db)).roles.map
        Role.id).Nodup := by
      rw [hd0roles]
      exact hIds1
    have hA : initDefaultRoles (initRBAC db) = initRBAC db := by
      apply foldr_eq_self
      intro rd hrd
      obtain ⟨r, hr, hname⟩ := foldr_has_names defaultRoles db rd hrd
      refine ⟨r, ?_, hname⟩
      rw [hroles1]
      exact hr
    have hP : initDefaultPermissions (initRBAC db) = initRBAC db := by
      apply foldp_eq_self
      intro pd hpd
      obtain ⟨p, hp, hname⟩ :=
        foldp_has_names defaultPermissions (initDefaultRoles db) pd hpd
      refine ⟨p, ?_, hname⟩
      rw [hperms1]
      exact hp
    show assignDefaultRolePerms
      (initDefaultPermissions (initDefaultRoles (initRBAC db))) = initRBAC db
    rw [hA, hP, adp_eq_foldOps]
    have hd1 : initRBAC db =
        foldOps defaultOps (initDefaultPermissions (initDefaultRoles db)) := by
      unfold initRBAC
      rw [adp_eq_foldOps]
    rw [hd1]
    exact foldOps_idem defaultOps _ hIds0 (by decide)
  · unfold initRBAC
    rw [adp_eq_foldOps, foldOps_userRoles]
    exact ((foldp_fields defaultPermissions (initDefaultRoles db)).2.2.1).trans
      ((foldr_fields defaultRoles db).2.2.1)
  · obtain ⟨L, hL, _⟩ := foldr_roles_append defaultRoles db
    refine ⟨L, ?_⟩
    rw [hroles1]
    exact hL
  · intro rp hrp hbound hforeignRole
    have hrp0 : rp ∈ (initDefaultPermissions (initDefaultRoles db)).rolePermissions := by
      have e1 : (initDefaultPermissions (initDefaultRoles db)).rolePermissions =
          (initDefaultRoles db).rolePermissions :=
        (foldp_fields defaultPermissions (initDefaultRoles db)).2.2.2
      have e2 : (initDefaultRoles db).rolePermissions = db.rolePermissions :=
        (foldr_fields defaultRoles db).2.2.2
      rw [e1, e2]
      exact hrp
    unfold initRBAC
    rw [adp_eq_foldOps]
    apply foldOps_foreign_grants _ _ _ hrp0
    intro op hop r hf hid
    have hrname : r.name = op.2 := by
      have := List.find?_some hf
      simpa using this
    have hopn : op.2 ∈ defaultRoleNames := by
      have hmapeq : defaultOps.map Prod.snd = defaultRoleNames := by decide
      rw [← hmapeq]
      exact List.mem_map_of_mem Prod.snd hop
    have hrmem : r ∈ (initDefaultRoles db).roles := by
      have := List.mem_of_find?_eq_some hf
      rw [hd0roles] at this
      exact this
    obtain ⟨L, hL, hbnd⟩ := foldr_roles_append defaultRoles db
    have hL2 : (initDefaultRoles db).roles = db.roles ++ L := hL
    rw [hL2] at hrmem
    rcases List.mem_append.mp hrmem with h1 | h1
    · refine (hforeignRole r h1 hid) ?_
      rw [hrname]
      exact hopn
    · have h2 : db.nextId ≤ rp.role_id := hid ▸ hbnd r h1
      omega

/-- C7 (witness): on `exDB7` the second run reproduces the first run's
store exactly, the assignment row survives, and the custom role's grant
row survives the run. -/
theorem c7_initRBAC_idempotent_witness :
    initRBAC (initRBAC exDB7) = initRBAC exDB7 ∧
    (initRBAC exDB7).userRoles = exDB7.userRoles ∧
    (⟨3, 99, none⟩ : RolePermission) ∈ (initRBAC exDB7).rolePermissions := by
  have h := c7_initRBAC_idempotent exDB7 (by decide) (by decide)
  exact ⟨h.1, h.2.1, h.2.2.2 ⟨3, 99, none⟩ (by decide) (by decide) (by decide)⟩

end RBAC
